import Mathlib

/-!
# A verification model of the jsonsax streaming JSON library

This file gives a shallow embedding of the jsonsax streaming JSON parser
and writer (repository `jowens999/jsonsax`) and proves properties of it.

The repository's `src/` tree contains the public header `jsonsax.h` and the
unit-test suite `unittest/jsonsaxtest.c`, but not the implementation file
`jsonsax.c`.  Types, enumeration values and handler signatures below are
transcribed from `jsonsax.h`; the behaviour of the parser and writer is
modelled from the specification (`spec.md`), checked against the concrete
expectations recorded in `jsonsaxtest.c` (which is the authoritative code
where the specification and the tests disagree).

Bytes and Unicode scalars are represented as `Nat`.
-/

set_option maxHeartbeats 2000000

namespace Jsonsax

/-- Transcribed from jsonsax.h (enum tag_JSON_Status). -/
inductive JSON_Status where
  | Failure
  | Success
deriving DecidableEq, Repr

/-- Transcribed from jsonsax.h (enum tag_JSON_Error), values 0 .. 15 in order. -/
inductive JSON_Error where
  | None
  | OutOfMemory
  | AbortedByHandler
  | BOMNotAllowed
  | InvalidEncodingSequence
  | UnknownToken
  | UnexpectedToken
  | IncompleteToken
  | ExpectedMoreTokens
  | UnescapedControlCharacter
  | InvalidEscapeSequence
  | UnpairedSurrogateEscapeSequence
  | TooLongString
  | InvalidNumber
  | TooLongNumber
  | DuplicateObjectMember
deriving DecidableEq, Repr, Fintype

/-- Transcribed from jsonsax.h (enum tag_JSON_Encoding). -/
inductive JSON_Encoding where
  | Unknown
  | UTF8
  | UTF16LE
  | UTF16BE
  | UTF32LE
  | UTF32BE
deriving DecidableEq, Repr

/-- Transcribed from jsonsax.h (struct tag_JSON_Location): byte, line, column
and depth are all zero-based. -/
structure JSON_Location where
  byte : Nat
  line : Nat
  column : Nat
  depth : Nat
deriving DecidableEq, Repr

/-- Transcribed from jsonsax.h (enum tag_JSON_StringAttribute), as a record of
flags rather than a bit set. -/
structure JSON_StringAttributes where
  containsNul : Bool
  containsControl : Bool
  containsNonASCII : Bool
  containsNonBMP : Bool
  containsReplaced : Bool
deriving DecidableEq, Repr

def noAttrs : JSON_StringAttributes :=
  ⟨false, false, false, false, false⟩

/-- One parse callback invocation, with its arguments and token location.
`objectMember` carries the `isFirstMember` flag declared in jsonsax.h line 698,
`arrayItem` the `isFirstItem` flag of line 719. -/
inductive JSON_ParseEvent where
  | nullValue (loc : JSON_Location)
  | boolean (value : Bool) (loc : JSON_Location)
  | string (attrs : JSON_StringAttributes) (bytes : List Nat) (loc : JSON_Location)
  | number (text : List Nat) (loc : JSON_Location)
  | startObject (loc : JSON_Location)
  | endObject (loc : JSON_Location)
  | objectMember (isFirstMember : Bool) (attrs : JSON_StringAttributes)
      (bytes : List Nat) (loc : JSON_Location)
  | startArray (loc : JSON_Location)
  | endArray (loc : JSON_Location)
  | arrayItem (isFirstItem : Bool) (loc : JSON_Location)
deriving DecidableEq, Repr

/-- Whether an event carries the JSON_ContainsReplacedCharacter attribute. -/
def eventReplaced : JSON_ParseEvent → Bool
  | .string attrs _ _ => attrs.containsReplaced
  | .objectMember _ attrs _ _ => attrs.containsReplaced
  | _ => false

/-! ## Encoding a scalar into output bytes -/

/-- Modelled from the spec: encode one Unicode scalar in the given encoding
(the parser's output side and the writer's output pipeline). -/
def encodeScalar : JSON_Encoding → Nat → List Nat
  | .UTF8, v =>
    if v < 0x80 then [v]
    else if v < 0x800 then [0xC0 + v / 64, 0x80 + v % 64]
    else if v < 0x10000 then
      [0xE0 + v / 4096, 0x80 + v / 64 % 64, 0x80 + v % 64]
    else
      [0xF0 + v / 262144, 0x80 + v / 4096 % 64, 0x80 + v / 64 % 64, 0x80 + v % 64]
  | .UTF16LE, v =>
    if v < 0x10000 then [v % 256, v / 256]
    else
      let u := v - 0x10000
      let hi := 0xD800 + u / 1024
      let lo := 0xDC00 + u % 1024
      [hi % 256, hi / 256, lo % 256, lo / 256]
  | .UTF16BE, v =>
    if v < 0x10000 then [v / 256, v % 256]
    else
      let u := v - 0x10000
      let hi := 0xD800 + u / 1024
      let lo := 0xDC00 + u % 1024
      [hi / 256, hi % 256, lo / 256, lo % 256]
  | .UTF32LE, v => [v % 256, v / 256 % 256, v / 65536 % 256, v / 16777216]
  | .UTF32BE, v => [v / 16777216, v / 65536 % 256, v / 256 % 256, v % 256]
  | .Unknown, _ => []

/-! ## Incremental decoding with Unicode 5.2 maximal-subpart replacement

The decoder consumes one input byte at a time, keeping the bytes of the
current partial encoding sequence in a small pending buffer.  Invalid
sequences are emitted as U+FFFD scalars carrying a `replaced` marker; the
strict mode of the pipeline turns the first marked scalar into a
JSON_Error_InvalidEncodingSequence instead (see `processScalar`). -/

/-- A decoded scalar: its value, whether it replaced an invalid encoding
sequence, and the byte index at which its encoding sequence began. -/
structure ScalarInfo where
  scalar : Nat
  replaced : Bool
  start : Nat
deriving DecidableEq, Repr

/-- Is `b` a UTF-8 continuation byte? -/
def utf8Cont (b : Nat) : Bool := 0x80 ≤ b && b ≤ 0xBF

/-- Decode one byte arriving with an empty UTF-8 pending buffer: an ASCII
scalar, the start of a multi-byte sequence, or an invalid lead byte
(0x80..0xC1, 0xF5..0xFF) replaced on the spot. -/
def utf8Start (pos b : Nat) : List ScalarInfo × List Nat × Nat :=
  if b ≤ 0x7F then ([⟨b, false, pos⟩], [], 0)
  else if (0xC2 ≤ b && b ≤ 0xF4) then ([], [b], pos)
  else ([⟨0xFFFD, true, pos⟩], [], 0)

/-- May byte `b` continue the UTF-8 sequence begun by the single lead `l`?
Overlong forms, encoded surrogates and out-of-range scalars are excluded
here, so that the maximal valid subsequence ends before `b`. -/
def utf8Follow2 (l b : Nat) : Bool :=
  if l = 0xE0 then 0xA0 ≤ b && b ≤ 0xBF
  else if l = 0xED then 0x80 ≤ b && b ≤ 0x9F
  else if l = 0xF0 then 0x90 ≤ b && b ≤ 0xBF
  else if l = 0xF4 then 0x80 ≤ b && b ≤ 0x8F
  else utf8Cont b

/-- Decode one byte in the given input encoding.  Returns the scalars
completed by this byte (possibly with U+FFFD replacement markers), the new
pending buffer and the byte index at which the new pending buffer begins. -/
def decodeByte (enc : JSON_Encoding) (pending : List Nat) (pendStart pos b : Nat) :
    List ScalarInfo × List Nat × Nat :=
  match enc with
  | .UTF8 =>
    match pending with
    | [] => utf8Start pos b
    | [l] =>
      if l ≤ 0xDF then
        if utf8Cont b then ([⟨(l - 0xC0) * 64 + (b - 0x80), false, pendStart⟩], [], 0)
        else
          let (xs, p, ps) := utf8Start pos b
          (⟨0xFFFD, true, pendStart⟩ :: xs, p, ps)
      else
        if utf8Follow2 l b then ([], [l, b], pendStart)
        else
          let (xs, p, ps) := utf8Start pos b
          (⟨0xFFFD, true, pendStart⟩ :: xs, p, ps)
    | [l, c1] =>
      if l ≤ 0xEF then
        if utf8Cont b then
          ([⟨(l - 0xE0) * 4096 + (c1 - 0x80) * 64 + (b - 0x80), false, pendStart⟩], [], 0)
        else
          let (xs, p, ps) := utf8Start pos b
          (⟨0xFFFD, true, pendStart⟩ :: xs, p, ps)
      else
        if utf8Cont b then ([], [l, c1, b], pendStart)
        else
          let (xs, p, ps) := utf8Start pos b
          (⟨0xFFFD, true, pendStart⟩ :: xs, p, ps)
    | [l, c1, c2] =>
      if utf8Cont b then
        ([⟨(l - 0xF0) * 262144 + (c1 - 0x80) * 4096 + (c2 - 0x80) * 64 + (b - 0x80),
           false, pendStart⟩], [], 0)
      else
        let (xs, p, ps) := utf8Start pos b
        (⟨0xFFFD, true, pendStart⟩ :: xs, p, ps)
    | _ =>
      let (xs, p, ps) := utf8Start pos b
      (⟨0xFFFD, true, pendStart⟩ :: xs, p, ps)
  | .UTF16LE =>
    match pending with
    | [] => ([], [b], pos)
    | [b0] =>
      let u := b0 + 256 * b
      if u < 0xD800 || 0xDFFF < u then ([⟨u, false, pendStart⟩], [], 0)
      else if u ≤ 0xDBFF then ([], [b0, b], pendStart)
      else ([⟨0xFFFD, true, pendStart⟩], [], 0)
    | [b0, b1] => ([], [b0, b1, b], pendStart)
    | [b0, b1, b2] =>
      let u1 := b0 + 256 * b1
      let u2 := b2 + 256 * b
      if 0xDC00 ≤ u2 && u2 ≤ 0xDFFF then
        ([⟨0x10000 + (u1 - 0xD800) * 1024 + (u2 - 0xDC00), false, pendStart⟩], [], 0)
      else if u2 < 0xD800 || 0xDFFF < u2 then
        ([⟨0xFFFD, true, pendStart⟩, ⟨u2, false, pendStart + 2⟩], [], 0)
      else
        ([⟨0xFFFD, true, pendStart⟩], [b2, b], pendStart + 2)
    | _ => ([⟨0xFFFD, true, pendStart⟩], [b], pos)
  | .UTF16BE =>
    match pending with
    | [] => ([], [b], pos)
    | [b0] =>
      let u := 256 * b0 + b
      if u < 0xD800 || 0xDFFF < u then ([⟨u, false, pendStart⟩], [], 0)
      else if u ≤ 0xDBFF then ([], [b0, b], pendStart)
      else ([⟨0xFFFD, true, pendStart⟩], [], 0)
    | [b0, b1] => ([], [b0, b1, b], pendStart)
    | [b0, b1, b2] =>
      let u1 := 256 * b0 + b1
      let u2 := 256 * b2 + b
      if 0xDC00 ≤ u2 && u2 ≤ 0xDFFF then
        ([⟨0x10000 + (u1 - 0xD800) * 1024 + (u2 - 0xDC00), false, pendStart⟩], [], 0)
      else if u2 < 0xD800 || 0xDFFF < u2 then
        ([⟨0xFFFD, true, pendStart⟩, ⟨u2, false, pendStart + 2⟩], [], 0)
      else
        ([⟨0xFFFD, true, pendStart⟩], [b2, b], pendStart + 2)
    | _ => ([⟨0xFFFD, true, pendStart⟩], [b], pos)
  | .UTF32LE =>
    match pending with
    | [] => ([], [b], pos)
    | [a0] => ([], [a0, b], pendStart)
    | [a0, a1] => ([], [a0, a1, b], pendStart)
    | [a0, a1, a2] =>
      let w := a0 + 256 * a1 + 65536 * a2 + 16777216 * b
      if w ≤ 0x10FFFF && (w < 0xD800 || 0xDFFF < w) then ([⟨w, false, pendStart⟩], [], 0)
      else ([⟨0xFFFD, true, pendStart⟩], [], 0)
    | _ => ([⟨0xFFFD, true, pendStart⟩], [b], pos)
  | .UTF32BE =>
    match pending with
    | [] => ([], [b], pos)
    | [a0] => ([], [a0, b], pendStart)
    | [a0, a1] => ([], [a0, a1, b], pendStart)
    | [a0, a1, a2] =>
      let w := 16777216 * a0 + 65536 * a1 + 256 * a2 + b
      if w ≤ 0x10FFFF && (w < 0xD800 || 0xDFFF < w) then ([⟨w, false, pendStart⟩], [], 0)
      else ([⟨0xFFFD, true, pendStart⟩], [], 0)
    | _ => ([⟨0xFFFD, true, pendStart⟩], [b], pos)
  | .Unknown => ([], [], 0)

/-! ## Input-encoding auto-detection -/

/-- Modelled from the spec and the test suite: classify four initial input
bytes.  Byte-order-mark patterns are recognised first (the test suite fixes
`FF FE 37 00 -> UTF16LE`, `FE FF 00 37 -> UTF16BE`, and so on); then the
null-byte-pattern table of spec section 4.1 applies.  `none` means the
pattern `00 00 00 00` or `xx 00 00 xx`, which fails with
JSON_Error_InvalidEncodingSequence at byte 0. -/
def detect4 (b0 b1 b2 b3 : Nat) : Option JSON_Encoding :=
  if b0 = 0xFF && b1 = 0xFE && b2 = 0 && b3 = 0 then some .UTF32LE
  else if b0 = 0 && b1 = 0 && b2 = 0xFE && b3 = 0xFF then some .UTF32BE
  else if b0 = 0xEF && b1 = 0xBB && b2 = 0xBF then some .UTF8
  else if b0 = 0xFF && b1 = 0xFE then some .UTF16LE
  else if b0 = 0xFE && b1 = 0xFF then some .UTF16BE
  else if b0 = 0 && b1 = 0 && b2 = 0 && b3 = 0 then none
  else if b0 = 0 && b1 = 0 && b2 = 0 then some .UTF32BE
  else if b1 = 0 && b2 = 0 && b3 = 0 then some .UTF32LE
  else if b1 = 0 && b2 = 0 then none
  else if b0 = 0 && b1 ≠ 0 then some .UTF16BE
  else if b0 ≠ 0 && b1 = 0 then some .UTF16LE
  else some .UTF8

/-- Modelled from the spec: classify a final input of fewer than four bytes
by the same table restricted to the available prefix; a single byte (ASCII
or not) defaults to UTF-8. -/
def detectShort (buf : List Nat) : JSON_Encoding :=
  match buf with
  | [b0, b1] =>
    if b0 = 0xFF && b1 = 0xFE then .UTF16LE
    else if b0 = 0xFE && b1 = 0xFF then .UTF16BE
    else if b0 = 0 && b1 ≠ 0 then .UTF16BE
    else if b0 ≠ 0 && b1 = 0 then .UTF16LE
    else .UTF8
  | [b0, b1, _] =>
    if b0 = 0xFF && b1 = 0xFE then .UTF16LE
    else if b0 = 0xFE && b1 = 0xFF then .UTF16BE
    else if b0 = 0 && b1 ≠ 0 then .UTF16BE
    else if b0 ≠ 0 && b1 = 0 then .UTF16LE
    else .UTF8
  | _ => .UTF8

/-! ## Lexer and grammar state -/

/-- Which keyword literal is being matched. -/
inductive LitKind where
  | nullLit
  | trueLit
  | falseLit
deriving DecidableEq, Repr

/-- Sub-state of the number lexer (spec section 4.2, number grammar). -/
inductive NumState where
  | numMinus
  | numZero
  | numInt
  | numDot
  | numFrac
  | numE
  | numESign
  | numExp
deriving DecidableEq, Repr

/-- Number states at which a boundary character may legally end the token. -/
def numTerminable : NumState → Bool
  | .numZero => true
  | .numInt => true
  | .numFrac => true
  | .numExp => true
  | _ => false

/-- Escape-processing sub-state inside a string token.  Each escape state
remembers the location (byte, line, column) of the backslash that opened the
escape sequence; surrogate states also remember the decoded high surrogate. -/
inductive EscState where
  | escNone
  | escB (el : Nat × Nat × Nat)
  | escU (el : Nat × Nat × Nat) (digits : List Nat)
  | escSur (hi : Nat) (el : Nat × Nat × Nat)
  | escSurB (hi : Nat) (el : Nat × Nat × Nat)
  | escSurU (hi : Nat) (el : Nat × Nat × Nat) (digits : List Nat)
deriving DecidableEq, Repr

/-- The token lexer's state (spec section 4.2).  A literal in progress
records how many of its characters have been matched. -/
inductive LexState where
  | between
  | inLiteral (kind : LitKind) (pos : Nat)
  | inString (buf : List Nat) (attrs : JSON_StringAttributes) (esc : EscState)
  | inNumber (buf : List Nat) (sub : NumState)
deriving DecidableEq, Repr

/-- The grammar state machine's current expectation (spec section 4.3). -/
inductive GramState where
  | startTop
  | afterTop
  | arrFirst
  | arrAfterItem
  | arrAfterComma
  | objFirst
  | objAfterKey
  | objAfterColon
  | objAfterValue
  | objAfterComma
deriving DecidableEq, Repr

/-- A frame of the context stack: an open array or an open object with its
member-name set (output-encoded names), together with the grammar state to
resume when the container closes. -/
inductive Frame where
  | arrF (resume : GramState)
  | objF (members : List (List Nat)) (resume : GramState)
deriving DecidableEq, Repr

/-- The decoding phase: still buffering up to four bytes for input-encoding
auto-detection, or decoding with a known encoding. -/
inductive DecodePhase where
  | detecting (buf : List Nat)
  | decoding
deriving DecidableEq, Repr

/-- The parser's incremental core state: everything the byte pipeline reads
and writes.  `replaced` latches as soon as any U+FFFD replacement has been
processed; `events` is the event stream so far (append-only). -/
structure CoreState where
  error : Option (JSON_Error × JSON_Location)
  phase : DecodePhase
  encoding : JSON_Encoding
  pending : List Nat
  pendingStart : Nat
  byteIndex : Nat
  line : Nat
  column : Nat
  prevCR : Bool
  atStart : Bool
  lexer : LexState
  tokStart : Nat × Nat × Nat
  stack : List Frame
  gram : GramState
  replaced : Bool
  events : List JSON_ParseEvent
deriving DecidableEq, Repr

/-- Settings read by the lexer and grammar (everything except the input
encoding and the replacement flag, which the byte pipeline itself uses).
`memberVerdict` models the object-member handler's returned verdict: `true`
means JSON_Parser_TreatAsDuplicateObjectMember. -/
structure LexSettings where
  outputEncoding : JSON_Encoding
  allowBOM : Bool
  trackObjectMembers : Bool
  maxStringLength : Option Nat
  maxNumberLength : Option Nat
  memberVerdict : List Nat → Bool

/-- Latch an error with its location; no further input is consumed. -/
def setError (s : CoreState) (e : JSON_Error) (loc : JSON_Location) : CoreState :=
  { s with error := some (e, loc) }

/-- Append an event to the stream. -/
def emit (s : CoreState) (e : JSON_ParseEvent) : CoreState :=
  { s with events := s.events ++ [e] }

/-- Advance line/column bookkeeping over one decoded scalar.  The sequences
LF, CR and CR LF each count as a single line break (spec section 4.7). -/
def advanceChar (s : CoreState) (c : Nat) : CoreState :=
  if c = 0x0D then { s with line := s.line + 1, column := 0, prevCR := true }
  else if c = 0x0A then
    if s.prevCR then { s with prevCR := false }
    else { s with line := s.line + 1, column := 0, prevCR := false }
  else { s with column := s.column + 1, prevCR := false }

/-- The location of the current token's first character, at the current
container depth. -/
def tokLoc (s : CoreState) : JSON_Location :=
  ⟨s.tokStart.1, s.tokStart.2.1, s.tokStart.2.2, s.stack.length⟩

/-- The location of the current scalar (sequence start byte, current
line/column) at the current container depth. -/
def curLoc (s : CoreState) (cstart : Nat) : JSON_Location :=
  ⟨cstart, s.line, s.column, s.stack.length⟩

/-- Grammar states in which a value token is expected. -/
def valuePos : GramState → Bool
  | .startTop => true
  | .arrFirst => true
  | .arrAfterComma => true
  | .objAfterColon => true
  | _ => false

/-- Grammar state after a complete value in the given value position. -/
def afterValueGram : GramState → GramState
  | .startTop => .afterTop
  | .arrFirst => .arrAfterItem
  | .arrAfterComma => .arrAfterItem
  | .objAfterColon => .objAfterValue
  | g => g

/-- Fire the array-item callback before an item value (spec section 4.3):
`isFirstItem` is true exactly in the first-item position. -/
def emitItemIfArray (s : CoreState) (loc : JSON_Location) : CoreState :=
  match s.gram with
  | .arrFirst => emit s (.arrayItem true loc)
  | .arrAfterComma => emit s (.arrayItem false loc)
  | _ => s

/-- Completed tokens handed from the lexer to the grammar state machine. -/
inductive Token where
  | lcurly
  | rcurly
  | lsquare
  | rsquare
  | colonTok
  | commaTok
  | nullTok
  | trueTok
  | falseTok
  | stringTok (attrs : JSON_StringAttributes) (buf : List Nat)
  | numberTok (buf : List Nat)
deriving DecidableEq, Repr

/-- The value event for a simple (non-container) value token. -/
def valueEvent (tk : Token) (loc : JSON_Location) : JSON_ParseEvent :=
  match tk with
  | .nullTok => .nullValue loc
  | .trueTok => .boolean true loc
  | .falseTok => .boolean false loc
  | .stringTok attrs buf => .string attrs buf loc
  | .numberTok buf => .number buf loc
  | _ => .nullValue loc

/-- Modelled from the spec (section 4.3): feed one completed token to the
grammar state machine, emitting callbacks and maintaining the context
stack.  Start braces are reported at the depth outside the container, end
braces at the depth after popping; value, member and item events at the
current depth.  Member names are checked against the per-object member set
(byte-exact in the output encoding) when TrackObjectMembers is enabled, and
the member handler may independently return a treat-as-duplicate verdict. -/
def tokenDispatch (ls : LexSettings) (s : CoreState) (tk : Token) : CoreState :=
  let loc := tokLoc s
  let s := { s with lexer := .between }
  match tk with
  | .lcurly =>
    if valuePos s.gram then
      let s1 := emitItemIfArray s loc
      let s2 := emit s1 (.startObject loc)
      { s2 with stack := .objF [] (afterValueGram s.gram) :: s2.stack, gram := .objFirst }
    else setError s .UnexpectedToken loc
  | .lsquare =>
    if valuePos s.gram then
      let s1 := emitItemIfArray s loc
      let s2 := emit s1 (.startArray loc)
      { s2 with stack := .arrF (afterValueGram s.gram) :: s2.stack, gram := .arrFirst }
    else setError s .UnexpectedToken loc
  | .rcurly =>
    match s.gram, s.stack with
    | .objFirst, .objF _ res :: rest =>
      let s1 := emit s (.endObject ⟨loc.byte, loc.line, loc.column, rest.length⟩)
      { s1 with stack := rest, gram := res }
    | .objAfterValue, .objF _ res :: rest =>
      let s1 := emit s (.endObject ⟨loc.byte, loc.line, loc.column, rest.length⟩)
      { s1 with stack := rest, gram := res }
    | _, _ => setError s .UnexpectedToken loc
  | .rsquare =>
    match s.gram, s.stack with
    | .arrFirst, .arrF res :: rest =>
      let s1 := emit s (.endArray ⟨loc.byte, loc.line, loc.column, rest.length⟩)
      { s1 with stack := rest, gram := res }
    | .arrAfterItem, .arrF res :: rest =>
      let s1 := emit s (.endArray ⟨loc.byte, loc.line, loc.column, rest.length⟩)
      { s1 with stack := rest, gram := res }
    | _, _ => setError s .UnexpectedToken loc
  | .colonTok =>
    match s.gram with
    | .objAfterKey => { s with gram := .objAfterColon }
    | _ => setError s .UnexpectedToken loc
  | .commaTok =>
    match s.gram with
    | .arrAfterItem => { s with gram := .arrAfterComma }
    | .objAfterValue => { s with gram := .objAfterComma }
    | _ => setError s .UnexpectedToken loc
  | .stringTok attrs buf =>
    match s.gram with
    | .objFirst =>
      match s.stack with
      | .objF mems res :: rest =>
        if ls.trackObjectMembers && mems.contains buf then
          setError s .DuplicateObjectMember loc
        else if ls.memberVerdict buf then
          setError s .DuplicateObjectMember loc
        else
          let s1 := emit s (.objectMember true attrs buf loc)
          { s1 with stack := .objF (buf :: mems) res :: rest, gram := .objAfterKey }
      | _ => setError s .UnexpectedToken loc
    | .objAfterComma =>
      match s.stack with
      | .objF mems res :: rest =>
        if ls.trackObjectMembers && mems.contains buf then
          setError s .DuplicateObjectMember loc
        else if ls.memberVerdict buf then
          setError s .DuplicateObjectMember loc
        else
          let s1 := emit s (.objectMember false attrs buf loc)
          { s1 with stack := .objF (buf :: mems) res :: rest, gram := .objAfterKey }
      | _ => setError s .UnexpectedToken loc
    | g =>
      if valuePos g then
        let s1 := emitItemIfArray s loc
        let s2 := emit s1 (.string attrs buf loc)
        { s2 with gram := afterValueGram g }
      else setError s .UnexpectedToken loc
  | .nullTok =>
    if valuePos s.gram then
      let s1 := emitItemIfArray s loc
      let s2 := emit s1 (valueEvent tk loc)
      { s2 with gram := afterValueGram s.gram }
    else setError s .UnexpectedToken loc
  | .trueTok =>
    if valuePos s.gram then
      let s1 := emitItemIfArray s loc
      let s2 := emit s1 (valueEvent tk loc)
      { s2 with gram := afterValueGram s.gram }
    else setError s .UnexpectedToken loc
  | .falseTok =>
    if valuePos s.gram then
      let s1 := emitItemIfArray s loc
      let s2 := emit s1 (valueEvent tk loc)
      { s2 with gram := afterValueGram s.gram }
    else setError s .UnexpectedToken loc
  | .numberTok buf =>
    if valuePos s.gram then
      let s1 := emitItemIfArray s loc
      let s2 := emit s1 (.number buf loc)
      { s2 with gram := afterValueGram s.gram }
    else setError s .UnexpectedToken loc

/-! ## Per-scalar lexing -/

/-- The characters of each keyword literal. -/
def litSeq : LitKind → List Nat
  | .nullLit => [0x6E, 0x75, 0x6C, 0x6C]
  | .trueLit => [0x74, 0x72, 0x75, 0x65]
  | .falseLit => [0x66, 0x61, 0x6C, 0x73, 0x65]

def litToken : LitKind → Token
  | .nullLit => .nullTok
  | .trueLit => .trueTok
  | .falseLit => .falseTok

/-- Value of an ASCII hexadecimal digit, if any. -/
def hexVal (c : Nat) : Option Nat :=
  if 0x30 ≤ c && c ≤ 0x39 then some (c - 0x30)
  else if 0x41 ≤ c && c ≤ 0x46 then some (c - 0x41 + 10)
  else if 0x61 ≤ c && c ≤ 0x66 then some (c - 0x61 + 10)
  else none

def isDigit (c : Nat) : Bool := 0x30 ≤ c && c ≤ 0x39

/-- Attributes contributed by one scalar appearing in a string value;
`rflag` records that the scalar replaced an invalid encoding sequence. -/
def scalarAttrs (v : Nat) (rflag : Bool) : JSON_StringAttributes :=
  ⟨v = 0, v < 0x20, 0x80 ≤ v, 0x10000 ≤ v, rflag⟩

def mergeAttrs (a b : JSON_StringAttributes) : JSON_StringAttributes :=
  ⟨a.containsNul || b.containsNul, a.containsControl || b.containsControl,
   a.containsNonASCII || b.containsNonASCII, a.containsNonBMP || b.containsNonBMP,
   a.containsReplaced || b.containsReplaced⟩

/-- Append one scalar to the string being lexed: re-encode it in the output
encoding, merge its attributes, and enforce MaxOutputStringLength (in output
bytes), which fails with JSON_Error_TooLongString at the token start. -/
def appendStr (ls : LexSettings) (s : CoreState) (buf : List Nat)
    (attrs : JSON_StringAttributes) (v : Nat) (rflag : Bool) : CoreState :=
  let buf' := buf ++ encodeScalar ls.outputEncoding v
  let attrs' := mergeAttrs attrs (scalarAttrs v rflag)
  match ls.maxStringLength with
  | some m =>
    if buf'.length ≤ m then { s with lexer := .inString buf' attrs' .escNone }
    else setError s .TooLongString (tokLoc s)
  | none => { s with lexer := .inString buf' attrs' .escNone }

/-- Start or continue a number token, enforcing the number length cap
(JSON_Error_TooLongNumber at the token start). -/
def pushNum (ls : LexSettings) (s : CoreState) (buf : List Nat) (c : Nat)
    (nst : NumState) : CoreState :=
  let buf' := buf ++ [c]
  match ls.maxNumberLength with
  | some m =>
    if buf'.length ≤ m then { s with lexer := .inNumber buf' nst }
    else setError s .TooLongNumber (tokLoc s)
  | none => { s with lexer := .inNumber buf' nst }

/-- Modelled from the spec (sections 4.2 and 4.3): dispatch a scalar arriving
between tokens.  Whitespace is skipped; punctuators are complete tokens;
`"` opens a string, `n`/`t`/`f` a keyword literal, `-` and digits a number;
anything else is JSON_Error_UnknownToken at the scalar itself. -/
def betweenChar (ls : LexSettings) (s : CoreState) (c cstart : Nat) : CoreState :=
  if c = 0x20 || c = 0x09 || c = 0x0A || c = 0x0D then s
  else
    let tok := (cstart, s.line, s.column)
    let s := { s with tokStart := tok }
    if c = 0x7B then tokenDispatch ls s .lcurly
    else if c = 0x7D then tokenDispatch ls s .rcurly
    else if c = 0x5B then tokenDispatch ls s .lsquare
    else if c = 0x5D then tokenDispatch ls s .rsquare
    else if c = 0x3A then tokenDispatch ls s .colonTok
    else if c = 0x2C then tokenDispatch ls s .commaTok
    else if c = 0x22 then { s with lexer := .inString [] noAttrs .escNone }
    else if c = 0x6E then { s with lexer := .inLiteral .nullLit 1 }
    else if c = 0x74 then { s with lexer := .inLiteral .trueLit 1 }
    else if c = 0x66 then { s with lexer := .inLiteral .falseLit 1 }
    else if c = 0x2D then pushNum ls s [] c .numMinus
    else if c = 0x30 then pushNum ls s [] c .numZero
    else if isDigit c then pushNum ls s [] c .numInt
    else setError s .UnknownToken (curLoc s cstart)

/-- Modelled from the spec (section 4.2): one scalar inside a string token.
Escape errors are reported at the backslash that opened the offending escape
sequence; unescaped control characters at the character itself. -/
def stringChar (ls : LexSettings) (s : CoreState) (buf : List Nat)
    (attrs : JSON_StringAttributes) (esc : EscState) (c cstart : Nat)
    (rflag : Bool) : CoreState :=
  match esc with
  | .escNone =>
    if c = 0x22 then tokenDispatch ls s (.stringTok attrs buf)
    else if c = 0x5C then
      { s with lexer := .inString buf attrs (.escB (cstart, s.line, s.column)) }
    else if c < 0x20 then setError s .UnescapedControlCharacter (curLoc s cstart)
    else appendStr ls s buf attrs c rflag
  | .escB el =>
    if c = 0x22 then appendStr ls s buf attrs 0x22 false
    else if c = 0x5C then appendStr ls s buf attrs 0x5C false
    else if c = 0x2F then appendStr ls s buf attrs 0x2F false
    else if c = 0x62 then appendStr ls s buf attrs 0x08 false
    else if c = 0x66 then appendStr ls s buf attrs 0x0C false
    else if c = 0x6E then appendStr ls s buf attrs 0x0A false
    else if c = 0x72 then appendStr ls s buf attrs 0x0D false
    else if c = 0x74 then appendStr ls s buf attrs 0x09 false
    else if c = 0x75 then { s with lexer := .inString buf attrs (.escU el []) }
    else setError s .InvalidEscapeSequence ⟨el.1, el.2.1, el.2.2, s.stack.length⟩
  | .escU el ds =>
    match hexVal c with
    | none => setError s .InvalidEscapeSequence ⟨el.1, el.2.1, el.2.2, s.stack.length⟩
    | some h =>
      let ds' := ds ++ [h]
      if ds'.length = 4 then
        let v := ds'.foldl (fun a d => a * 16 + d) 0
        if 0xD800 ≤ v && v ≤ 0xDBFF then
          { s with lexer := .inString buf attrs (.escSur v el) }
        else if 0xDC00 ≤ v && v ≤ 0xDFFF then
          setError s .UnpairedSurrogateEscapeSequence ⟨el.1, el.2.1, el.2.2, s.stack.length⟩
        else appendStr ls s buf attrs v false
      else { s with lexer := .inString buf attrs (.escU el ds') }
  | .escSur hi el =>
    if c = 0x5C then { s with lexer := .inString buf attrs (.escSurB hi el) }
    else setError s .UnpairedSurrogateEscapeSequence ⟨el.1, el.2.1, el.2.2, s.stack.length⟩
  | .escSurB hi el =>
    if c = 0x75 then { s with lexer := .inString buf attrs (.escSurU hi el []) }
    else setError s .UnpairedSurrogateEscapeSequence ⟨el.1, el.2.1, el.2.2, s.stack.length⟩
  | .escSurU hi el ds =>
    match hexVal c with
    | none => setError s .UnpairedSurrogateEscapeSequence ⟨el.1, el.2.1, el.2.2, s.stack.length⟩
    | some h =>
      let ds' := ds ++ [h]
      if ds'.length = 4 then
        let v := ds'.foldl (fun a d => a * 16 + d) 0
        if 0xDC00 ≤ v && v ≤ 0xDFFF then
          appendStr ls s buf attrs (0x10000 + (hi - 0xD800) * 1024 + (v - 0xDC00)) false
        else
          setError s .UnpairedSurrogateEscapeSequence ⟨el.1, el.2.1, el.2.2, s.stack.length⟩
      else { s with lexer := .inString buf attrs (.escSurU hi el ds') }

/-- Modelled from the spec (section 4.2): one scalar inside a number token.
At a terminable sub-state a non-number scalar finishes the token and is then
re-dispatched between tokens; a malformed continuation is
JSON_Error_InvalidNumber at the token start (JSON_Error_UnknownToken for a
bare minus, matching the test suite). -/
def numberChar (ls : LexSettings) (s : CoreState) (buf : List Nat)
    (nst : NumState) (c cstart : Nat) : CoreState :=
  let finish : CoreState :=
    let s1 := tokenDispatch ls s (.numberTok buf)
    if s1.error.isSome then s1 else betweenChar ls s1 c cstart
  match nst with
  | .numMinus =>
    if c = 0x30 then pushNum ls s buf c .numZero
    else if isDigit c then pushNum ls s buf c .numInt
    else setError s .UnknownToken (tokLoc s)
  | .numZero =>
    if c = 0x2E then pushNum ls s buf c .numDot
    else if c = 0x65 || c = 0x45 then pushNum ls s buf c .numE
    else if isDigit c then setError s .InvalidNumber (tokLoc s)
    else finish
  | .numInt =>
    if isDigit c then pushNum ls s buf c .numInt
    else if c = 0x2E then pushNum ls s buf c .numDot
    else if c = 0x65 || c = 0x45 then pushNum ls s buf c .numE
    else finish
  | .numDot =>
    if isDigit c then pushNum ls s buf c .numFrac
    else setError s .InvalidNumber (tokLoc s)
  | .numFrac =>
    if isDigit c then pushNum ls s buf c .numFrac
    else if c = 0x65 || c = 0x45 then pushNum ls s buf c .numE
    else finish
  | .numE =>
    if isDigit c then pushNum ls s buf c .numExp
    else if c = 0x2B || c = 0x2D then pushNum ls s buf c .numESign
    else setError s .InvalidNumber (tokLoc s)
  | .numESign =>
    if isDigit c then pushNum ls s buf c .numExp
    else setError s .InvalidNumber (tokLoc s)
  | .numExp =>
    if isDigit c then pushNum ls s buf c .numExp
    else finish

/-- One scalar through the lexer, by current lexer state. -/
def lexChar (ls : LexSettings) (s : CoreState) (c cstart : Nat) (rflag : Bool) :
    CoreState :=
  match s.lexer with
  | .between => betweenChar ls s c cstart
  | .inLiteral k pos =>
    match (litSeq k).get? pos with
    | some r =>
      if c = r then
        if pos + 1 = (litSeq k).length then tokenDispatch ls s (litToken k)
        else { s with lexer := .inLiteral k (pos + 1) }
      else setError s .UnknownToken (tokLoc s)
    | none => setError s .UnknownToken (tokLoc s)
  | .inString buf attrs esc => stringChar ls s buf attrs esc c cstart rflag
  | .inNumber buf nst => numberChar ls s buf nst c cstart

/-- Modelled from the spec: process one decoded scalar.  A byte-order mark
(U+FEFF) as the very first scalar is consumed if AllowBOM is set and fails
with JSON_Error_BOMNotAllowed at byte 0 otherwise; afterwards the scalar
goes through the lexer and the line/column tracker. -/
def processScalarCore (ls : LexSettings) (s : CoreState) (c cstart : Nat)
    (rflag : Bool) : CoreState :=
  if s.atStart && c = 0xFEFF then
    if ls.allowBOM then advanceChar { s with atStart := false } c
    else setError s .BOMNotAllowed (curLoc s cstart)
  else
    let s := { s with atStart := false }
    let s1 := lexChar ls s c cstart rflag
    if s1.error.isSome then s1 else advanceChar s1 c

/-- Modelled from the spec: process one decoded scalar, first resolving
replacement markers.  In strict mode (ReplaceInvalidEncodingSequences
disabled) a marked scalar is JSON_Error_InvalidEncodingSequence at the first
byte of the bad sequence; in replacement mode it is processed as U+FFFD. -/
def processScalar (ls : LexSettings) (repl : Bool) (s : CoreState)
    (i : ScalarInfo) : CoreState :=
  if s.error.isSome then s
  else
    let s1 := { s with replaced := s.replaced || i.replaced }
    if i.replaced && !repl then
      setError s1 .InvalidEncodingSequence ⟨i.start, s1.line, s1.column, s1.stack.length⟩
    else processScalarCore ls s1 i.scalar i.start i.replaced

/-! ## The byte pipeline -/

/-- Feed one raw input byte to the decoder and process the scalars it
completes. -/
def feedRaw (ls : LexSettings) (repl : Bool) (s : CoreState) (b : Nat) : CoreState :=
  if s.error.isSome then s
  else
    let (infos, p', ps') := decodeByte s.encoding s.pending s.pendingStart s.byteIndex b
    let s1 := { s with pending := p', pendingStart := ps', byteIndex := s.byteIndex + 1 }
    infos.foldl (processScalar ls repl) s1

/-- Modelled from the spec: one input byte pushed to the parser.  While the
input encoding is still unknown, up to four bytes are buffered; once four
are available the detection table runs and the buffered bytes are replayed
through the decoder. -/
def stepByte (ls : LexSettings) (repl : Bool) (s : CoreState) (b : Nat) : CoreState :=
  if s.error.isSome then s
  else
    match s.phase with
    | .detecting buf =>
      match buf ++ [b] with
      | [b0, b1, b2, b3] =>
        match detect4 b0 b1 b2 b3 with
        | none => setError s .InvalidEncodingSequence ⟨0, 0, 0, 0⟩
        | some e =>
          let s1 := { s with phase := .decoding, encoding := e }
          [b0, b1, b2, b3].foldl (feedRaw ls repl) s1
      | buf' => { s with phase := .detecting buf' }
    | .decoding => feedRaw ls repl s b

/-- Grammar finalisation: only a complete top-level value is acceptable;
anything else is JSON_Error_ExpectedMoreTokens just past the last byte. -/
def gramFinalize (s : CoreState) : CoreState :=
  match s.gram with
  | .afterTop => s
  | _ => setError s .ExpectedMoreTokens ⟨s.byteIndex, s.line, s.column, s.stack.length⟩

/-- Lexer finalisation: a token cut off by the end of input is
JSON_Error_IncompleteToken at the token start; a terminable number is
completed first. -/
def lexFinalize (ls : LexSettings) (s : CoreState) : CoreState :=
  match s.lexer with
  | .between => gramFinalize s
  | .inLiteral _ _ => setError s .IncompleteToken (tokLoc s)
  | .inString _ _ _ => setError s .IncompleteToken (tokLoc s)
  | .inNumber buf nst =>
    if numTerminable nst then
      let s1 := tokenDispatch ls s (.numberTok buf)
      if s1.error.isSome then s1 else gramFinalize s1
    else setError s .IncompleteToken (tokLoc s)

/-- Flush a truncated encoding sequence left pending at the end of input,
then finalise the lexer and grammar. -/
def finishTail (ls : LexSettings) (repl : Bool) (s : CoreState) : CoreState :=
  if s.error.isSome then s
  else
    let s1 :=
      if s.pending.isEmpty then s
      else processScalar ls repl { s with pending := [] } ⟨0xFFFD, true, s.pendingStart⟩
    if s1.error.isSome then s1 else lexFinalize ls s1

/-- Modelled from the spec: finalisation on `isFinal = true`.  An empty
input with unknown encoding is JSON_Error_ExpectedMoreTokens at byte 0; one
to three buffered bytes are classified by the prefix table and replayed. -/
def finalizeCore (ls : LexSettings) (repl : Bool) (s : CoreState) : CoreState :=
  if s.error.isSome then s
  else
    match s.phase with
    | .detecting buf =>
      if buf.isEmpty then setError s .ExpectedMoreTokens ⟨0, 0, 0, 0⟩
      else
        let s1 := { s with phase := .decoding, encoding := detectShort buf }
        let s2 := buf.foldl (feedRaw ls repl) s1
        finishTail ls repl s2
    | .decoding => finishTail ls repl s

/-! ## The public parser object and its API -/

/-- The settings of a parser instance (jsonsax.h setters).  `inputEncoding
= Unknown` requests auto-detection; `replace` is the
ReplaceInvalidEncodingSequences setting. -/
structure ParserSettings where
  lex : LexSettings
  inputEncoding : JSON_Encoding
  replace : Bool

/-- Default settings installed by JSON_Parser_Create (jsonsax.h): unknown
input encoding, UTF-8 output, all options off, no length caps, and a member
handler that never reports a duplicate. -/
def defaultSettings : ParserSettings :=
  { lex := { outputEncoding := .UTF8, allowBOM := false, trackObjectMembers := false,
             maxStringLength := none, maxNumberLength := none,
             memberVerdict := fun _ => false },
    inputEncoding := .Unknown, replace := false }

def initCore (enc : JSON_Encoding) : CoreState :=
  { error := none,
    phase := if enc = .Unknown then .detecting [] else .decoding,
    encoding := enc, pending := [], pendingStart := 0, byteIndex := 0,
    line := 0, column := 0, prevCR := false, atStart := true,
    lexer := .between, tokStart := (0, 0, 0), stack := [], gram := .startTop,
    replaced := false, events := [] }

/-- A parser instance: its settings, incremental core state, and lifecycle
flags.  `insideHandler` is set while a parse handler of this instance is
executing (spec section 5, reentrancy). -/
structure ParserState where
  settings : ParserSettings
  core : CoreState
  started : Bool
  finished : Bool
  insideHandler : Bool

/-- A freshly created parser with the given settings already applied. -/
def mkParser (st : ParserSettings) : ParserState :=
  ⟨st, initCore st.inputEncoding, false, false, false⟩

/-- JSON_Parser_Create with default settings. -/
def JSON_Parser_Create : ParserState := mkParser defaultSettings

/-- Modelled from the spec (jsonsax.h, JSON_Parser_Parse): push zero or more
bytes of input.  Fails without touching the state when called reentrantly
from a handler or when the parser has already finished parsing (an error is
latched or a final chunk was accepted). -/
def JSON_Parser_Parse (p : ParserState) (bytes : List Nat) (isFinal : Bool) :
    JSON_Status × ParserState :=
  if p.insideHandler || p.finished || p.core.error.isSome then (.Failure, p)
  else
    let c1 := bytes.foldl (stepByte p.settings.lex p.settings.replace) p.core
    if isFinal then
      let c2 := finalizeCore p.settings.lex p.settings.replace c1
      ((if c2.error.isSome then .Failure else .Success),
       { p with core := c2, started := true, finished := true })
    else
      ((if c1.error.isSome then .Failure else .Success),
       { p with core := c1, started := true, finished := c1.error.isSome })

/-- JSON_Parser_Free: fails when called reentrantly from a handler.  Only
the returned status is modelled; the instance is gone on success. -/
def JSON_Parser_Free (p : ParserState) : JSON_Status :=
  if p.insideHandler then .Failure else .Success

/-- JSON_Parser_Reset: fails inside a handler; otherwise restores the
create-time defaults. -/
def JSON_Parser_Reset (p : ParserState) : JSON_Status × ParserState :=
  if p.insideHandler then (.Failure, p) else (.Success, JSON_Parser_Create)

/-- Shared gate of all settings setters: they fail inside a handler and once
parsing has started, leaving the instance unchanged. -/
def trySetter (p : ParserState) (f : ParserSettings → ParserSettings) :
    JSON_Status × ParserState :=
  if p.insideHandler || p.started then (.Failure, p)
  else
    let st' := f p.settings
    (.Success, { p with settings := st', core := initCore st'.inputEncoding })

def JSON_Parser_SetInputEncoding (p : ParserState) (e : JSON_Encoding) :
    JSON_Status × ParserState :=
  trySetter p (fun st => { st with inputEncoding := e })

def JSON_Parser_SetOutputEncoding (p : ParserState) (e : JSON_Encoding) :
    JSON_Status × ParserState :=
  if e = .Unknown then (.Failure, p)
  else trySetter p (fun st => { st with lex := { st.lex with outputEncoding := e } })

def JSON_Parser_SetAllowBOM (p : ParserState) (v : Bool) : JSON_Status × ParserState :=
  trySetter p (fun st => { st with lex := { st.lex with allowBOM := v } })

def JSON_Parser_SetReplaceInvalidEncodingSequences (p : ParserState) (v : Bool) :
    JSON_Status × ParserState :=
  trySetter p (fun st => { st with replace := v })

def JSON_Parser_SetTrackObjectMembers (p : ParserState) (v : Bool) :
    JSON_Status × ParserState :=
  trySetter p (fun st => { st with lex := { st.lex with trackObjectMembers := v } })

def JSON_Parser_SetMaxOutputStringLength (p : ParserState) (v : Option Nat) :
    JSON_Status × ParserState :=
  trySetter p (fun st => { st with lex := { st.lex with maxStringLength := v } })

/-- JSON_Parser_GetError: never fails, returns JSON_Error_None when no error
is latched. -/
def JSON_Parser_GetError (p : ParserState) : JSON_Status × JSON_Error :=
  (.Success, match p.core.error with
             | some (e, _) => e
             | none => .None)

/-- JSON_Parser_GetInputEncoding: never fails; reports the detected encoding
once detection has run. -/
def JSON_Parser_GetInputEncoding (p : ParserState) : JSON_Status × JSON_Encoding :=
  (.Success, p.core.encoding)

/-- JSON_Parser_GetErrorLocation: succeeds exactly when an error is latched. -/
def JSON_Parser_GetErrorLocation (p : ParserState) : JSON_Status × Option JSON_Location :=
  match p.core.error with
  | some (_, loc) => (.Success, some loc)
  | none => (.Failure, none)

/-- Run a whole input as a single final chunk on a fresh parser with the
given settings. -/
def runParse (st : ParserSettings) (bytes : List Nat) : ParserState :=
  (JSON_Parser_Parse (mkParser st) bytes true).2

/-- The parse consumed a complete top-level value with no error. -/
def parseOk (p : ParserState) : Prop := p.core.error = none

/-- The latched error, if any, without its location. -/
def errKind (p : ParserState) : JSON_Error :=
  match p.core.error with
  | some (e, _) => e
  | none => .None

/-- The latched error location (meaningful only when an error is latched). -/
def errLoc (p : ParserState) : JSON_Location :=
  match p.core.error with
  | some (_, l) => l
  | none => ⟨0, 0, 0, 0⟩

/-! ## The writer -/

/-- The writer validator's state (spec section 4.5), mirroring the parser's
grammar states. -/
structure WriterState where
  error : Option JSON_Error
  gram : GramState
  stack : List GramState
  output : List Nat
deriving Repr

structure WriterSettings where
  outputEncoding : JSON_Encoding
  useCRLF : Bool
  replace : Bool

def JSON_Writer_Create : WriterState :=
  ⟨none, .startTop, [], []⟩

/-- Append the ASCII bytes of a structural token, transcoded to the output
encoding. -/
def writerPut (ws : WriterSettings) (s : WriterState) (ascii : List Nat) : WriterState :=
  { s with output := s.output ++ (ascii.map (encodeScalar ws.outputEncoding)).flatten }

def writerFail (s : WriterState) (e : JSON_Error) : JSON_Status × WriterState :=
  (.Failure, { s with error := some e })

/-- Modelled from the spec (section 4.6): the writer-side ASCII scanner for
WriteNumber, accepting `-? (0 | [1-9][0-9]*) (. [0-9]+)? ([eE] [+-]? [0-9]+)?`
and `0 [xX] [0-9a-fA-F]+`. -/
def writerNumberValid (text : List Nat) : Bool :=
  let rec expo : List Nat → Bool
    | [] => false
    | c :: rest =>
      if c = 0x2B || c = 0x2D then rest ≠ [] && rest.all isDigit
      else (c :: rest).all isDigit
  let rec frac : List Nat → Bool
    | [] => true
    | c :: rest =>
      if c = 0x65 || c = 0x45 then expo rest
      else false
  let rec fracDigits : List Nat → Bool
    | [] => false
    | c :: rest =>
      if isDigit c then
        match rest with
        | [] => true
        | _ => fracDigits rest || frac rest
      else false
  let afterInt : List Nat → Bool
    | [] => true
    | c :: rest =>
      if c = 0x2E then fracDigits rest
      else if c = 0x65 || c = 0x45 then expo rest
      else false
  let intTail (l : List Nat) : Bool :=
    let ds := l.takeWhile isDigit
    ds ≠ [] && afterInt (l.drop ds.length)
  match text with
  | 0x30 :: 0x78 :: rest => rest ≠ [] && rest.all (fun c => (hexVal c).isSome)
  | 0x30 :: 0x58 :: rest => rest ≠ [] && rest.all (fun c => (hexVal c).isSome)
  | 0x30 :: rest => afterInt rest
  | 0x2D :: 0x30 :: rest => afterInt rest
  | 0x2D :: rest => intTail rest
  | l => intTail l

/-- Modelled from the spec (section 4.1, output side): the JSON string form
of one scalar. -/
def escapeScalar (v : Nat) : List Nat :=
  let hex4 (n : Nat) : List Nat :=
    [0x5C, 0x75] ++ ([n / 4096 % 16, n / 256 % 16, n / 16 % 16, n % 16].map
      (fun d => if d < 10 then 0x30 + d else 0x41 + (d - 10)))
  if v = 0x22 then [0x5C, 0x22]
  else if v = 0x5C then [0x5C, 0x5C]
  else if v = 0x2F then [0x5C, 0x2F]
  else if v = 0x08 then [0x5C, 0x62]
  else if v = 0x09 then [0x5C, 0x74]
  else if v = 0x0A then [0x5C, 0x6E]
  else if v = 0x0C then [0x5C, 0x66]
  else if v = 0x0D then [0x5C, 0x72]
  else if v < 0x20 then hex4 v
  else if v = 0x2028 || v = 0x2029 then hex4 v
  else if 0xFDD0 ≤ v && v ≤ 0xFDEF then hex4 v
  else if v % 0x10000 = 0xFFFE || v % 0x10000 = 0xFFFF then
    if v < 0x10000 then hex4 v
    else
      let u := v - 0x10000
      hex4 (0xD800 + u / 1024) ++ hex4 (0xDC00 + u % 1024)
  else [v]

/-- Decode a whole input buffer in the given encoding into scalars,
replacing invalid sequences when `repl` is set; `none` when the input is
invalid and replacement is disabled. -/
def decodeAll (enc : JSON_Encoding) (repl : Bool) (bytes : List Nat) :
    Option (List Nat) :=
  let step (acc : Option (List ScalarInfo × List Nat × Nat × Nat)) (b : Nat) :
      Option (List ScalarInfo × List Nat × Nat × Nat) :=
    match acc with
    | none => none
    | some (infos, pending, pendStart, pos) =>
      let (xs, p', ps') := decodeByte enc pending pendStart pos b
      if !repl && xs.any (fun i => i.replaced) then none
      else some (infos ++ xs, p', ps', pos + 1)
  match bytes.foldl step (some ([], [], 0, 0)) with
  | none => none
  | some (infos, pending, _, _) =>
    if pending.isEmpty then some (infos.map (fun i => i.scalar))
    else if repl then some ((infos.map (fun i => i.scalar)) ++ [0xFFFD])
    else none

/-- Modelled from the spec (sections 4.5 and 6.2): the writer's structural
calls.  Each call is gated by the validator; an illegal call writes nothing
and latches the writer error. -/
def JSON_Writer_WriteStartArray (ws : WriterSettings) (s : WriterState) :
    JSON_Status × WriterState :=
  if s.error.isSome then (.Failure, s)
  else if valuePos s.gram then
    let s1 := writerPut ws s [0x5B]
    (.Success, { s1 with stack := afterValueGram s.gram :: s1.stack, gram := .arrFirst })
  else writerFail s .UnexpectedToken

def JSON_Writer_WriteEndArray (ws : WriterSettings) (s : WriterState) :
    JSON_Status × WriterState :=
  if s.error.isSome then (.Failure, s)
  else
    match s.gram, s.stack with
    | .arrFirst, res :: rest =>
      (.Success, { writerPut ws s [0x5D] with stack := rest, gram := res })
    | .arrAfterItem, res :: rest =>
      (.Success, { writerPut ws s [0x5D] with stack := rest, gram := res })
    | _, _ => writerFail s .UnexpectedToken

def JSON_Writer_WriteStartObject (ws : WriterSettings) (s : WriterState) :
    JSON_Status × WriterState :=
  if s.error.isSome then (.Failure, s)
  else if valuePos s.gram then
    let s1 := writerPut ws s [0x7B]
    (.Success, { s1 with stack := afterValueGram s.gram :: s1.stack, gram := .objFirst })
  else writerFail s .UnexpectedToken

def JSON_Writer_WriteEndObject (ws : WriterSettings) (s : WriterState) :
    JSON_Status × WriterState :=
  if s.error.isSome then (.Failure, s)
  else
    match s.gram, s.stack with
    | .objFirst, res :: rest =>
      (.Success, { writerPut ws s [0x7D] with stack := rest, gram := res })
    | .objAfterValue, res :: rest =>
      (.Success, { writerPut ws s [0x7D] with stack := rest, gram := res })
    | _, _ => writerFail s .UnexpectedToken

def JSON_Writer_WriteComma (ws : WriterSettings) (s : WriterState) :
    JSON_Status × WriterState :=
  if s.error.isSome then (.Failure, s)
  else
    match s.gram with
    | .arrAfterItem => (.Success, { writerPut ws s [0x2C] with gram := .arrAfterComma })
    | .objAfterValue => (.Success, { writerPut ws s [0x2C] with gram := .objAfterComma })
    | _ => writerFail s .UnexpectedToken

def JSON_Writer_WriteColon (ws : WriterSettings) (s : WriterState) :
    JSON_Status × WriterState :=
  if s.error.isSome then (.Failure, s)
  else
    match s.gram with
    | .objAfterKey => (.Success, { writerPut ws s [0x3A] with gram := .objAfterColon })
    | _ => writerFail s .UnexpectedToken

def JSON_Writer_WriteNumber (ws : WriterSettings) (s : WriterState)
    (text : List Nat) : JSON_Status × WriterState :=
  if s.error.isSome then (.Failure, s)
  else if valuePos s.gram then
    if writerNumberValid text then
      (.Success, { writerPut ws s text with gram := afterValueGram s.gram })
    else writerFail s .InvalidNumber
  else writerFail s .UnexpectedToken

def JSON_Writer_WriteString (ws : WriterSettings) (s : WriterState)
    (bytes : List Nat) (inEnc : JSON_Encoding) : JSON_Status × WriterState :=
  if s.error.isSome then (.Failure, s)
  else
    let keyPos := s.gram = .objFirst || s.gram = .objAfterComma
    if valuePos s.gram || keyPos then
      match decodeAll inEnc ws.replace bytes with
      | none => writerFail s .InvalidEncodingSequence
      | some scalars =>
        let body := (scalars.map escapeScalar).flatten
        let s1 := writerPut ws s ([0x22] ++ body ++ [0x22])
        if keyPos then (.Success, { s1 with gram := .objAfterKey })
        else (.Success, { s1 with gram := afterValueGram s.gram })
    else writerFail s .UnexpectedToken

def JSON_Writer_WriteNull (ws : WriterSettings) (s : WriterState) :
    JSON_Status × WriterState :=
  if s.error.isSome then (.Failure, s)
  else if valuePos s.gram then
    (.Success, { writerPut ws s [0x6E, 0x75, 0x6C, 0x6C] with gram := afterValueGram s.gram })
  else writerFail s .UnexpectedToken

def JSON_Writer_WriteNewLine (ws : WriterSettings) (s : WriterState) :
    JSON_Status × WriterState :=
  if s.error.isSome then (.Failure, s)
  else (.Success, writerPut ws s (if ws.useCRLF then [0x0D, 0x0A] else [0x0A]))

/-! ## JSON_ErrorString -/

/-- Modelled from the spec (jsonsax.h line 736 and the canonical strings of
TestErrorStrings in jsonsaxtest.c): a constant ASCII description for every
defined error code, and the empty string for any other integer value. -/
def JSON_ErrorString (e : Int) : String :=
  if e = 0 then "no error"
  else if e = 1 then "could not allocate enough memory"
  else if e = 2 then "the operation was aborted by a handler"
  else if e = 3 then "the input begins with a byte-order mark (BOM), which is not allowed by RFC 4627"
  else if e = 4 then "the input contains a byte or sequence of bytes that is not valid for the input encoding"
  else if e = 5 then "the input contains an unknown token"
  else if e = 6 then "the input contains an unexpected token"
  else if e = 7 then "the input ends in the middle of a token"
  else if e = 8 then "the input ends when more tokens are expected"
  else if e = 9 then "the input contains a string containing an unescaped control character (U+0000 - U+001F)"
  else if e = 10 then "the input contains a string containing an invalid escape sequence"
  else if e = 11 then "the input contains a string containing an unmatched UTF-16 surrogate codepoint"
  else if e = 12 then "the input contains a string that is too long"
  else if e = 13 then "the input contains an invalid number"
  else if e = 14 then "the input contains a number that is too long"
  else if e = 15 then "the input contains an object with duplicate members"
  else ""

/-- Transcribed from jsonsaxtest.c, TestErrorStrings (lines 4267 .. 4288):
the canonical description the test suite demands for each error code. -/
def testHarnessString : JSON_Error → String
  | .None => "no error"
  | .OutOfMemory => "could not allocate enough memory"
  | .AbortedByHandler => "the operation was aborted by a handler"
  | .BOMNotAllowed => "the input begins with a byte-order mark (BOM), which is not allowed by RFC 4627"
  | .InvalidEncodingSequence => "the input contains a byte or sequence of bytes that is not valid for the input encoding"
  | .UnknownToken => "the input contains an unknown token"
  | .UnexpectedToken => "the input contains an unexpected token"
  | .IncompleteToken => "the input ends in the middle of a token"
  | .ExpectedMoreTokens => "the input ends when more tokens are expected"
  | .UnescapedControlCharacter => "the input contains a string containing an unescaped control character (U+0000 - U+001F)"
  | .InvalidEscapeSequence => "the input contains a string containing an invalid escape sequence"
  | .UnpairedSurrogateEscapeSequence => "the input contains a string containing an unmatched UTF-16 surrogate codepoint"
  | .TooLongString => "the input contains a string that is too long"
  | .InvalidNumber => "the input contains an invalid number"
  | .TooLongNumber => "the input contains a number that is too long"
  | .DuplicateObjectMember => "the input contains an object with duplicate members"

/-- The integer value of each error code (jsonsax.h, enum tag_JSON_Error). -/
def errorCode : JSON_Error → Int
  | .None => 0
  | .OutOfMemory => 1
  | .AbortedByHandler => 2
  | .BOMNotAllowed => 3
  | .InvalidEncodingSequence => 4
  | .UnknownToken => 5
  | .UnexpectedToken => 6
  | .IncompleteToken => 7
  | .ExpectedMoreTokens => 8
  | .UnescapedControlCharacter => 9
  | .InvalidEscapeSequence => 10
  | .UnpairedSurrogateEscapeSequence => 11
  | .TooLongString => 12
  | .InvalidNumber => 13
  | .TooLongNumber => 14
  | .DuplicateObjectMember => 15

/-! ## Handler signatures (C parameter lists, transcribed from jsonsax.h) -/

/-- The C types appearing in jsonsax.h handler signatures. -/
inductive CParamType where
  | parserT       -- JSON_Parser
  | booleanT      -- JSON_Boolean
  | bytesT        -- const char*
  | sizeT         -- size_t
  | attributesT   -- JSON_StringAttributes
  | doubleT       -- double
  | specialT      -- JSON_SpecialNumber
deriving DecidableEq, Repr

/-- Transcribed from jsonsax.h line 698: the parameter list of
JSON_Parser_ObjectMemberHandler, `(JSON_Parser parser, JSON_Boolean
isFirstMember, const char* pBytes, size_t length, JSON_StringAttributes
attributes)`. -/
def objectMemberHandlerParams : List CParamType :=
  [.parserT, .booleanT, .bytesT, .sizeT, .attributesT]

/-- Transcribed from jsonsax.h line 719: the parameter list of
JSON_Parser_ArrayItemHandler, `(JSON_Parser parser, JSON_Boolean
isFirstItem)`. -/
def arrayItemHandlerParams : List CParamType :=
  [.parserT, .booleanT]

/-- Transcribed from jsonsax.h line 603: the parameter list of
JSON_Parser_StringHandler. -/
def stringHandlerParams : List CParamType :=
  [.parserT, .bytesT, .sizeT, .attributesT]

/-! ## Helper definitions used by the theorems -/

/-- Feed a list of chunks to a parser, with `isFinal` true only on the last
chunk. -/
def feedChunks (p : ParserState) : List (List Nat) → ParserState
  | [] => p
  | [c] => (JSON_Parser_Parse p c true).2
  | c :: c2 :: cs => feedChunks (JSON_Parser_Parse p c false).2 (c2 :: cs)

/-- No event of the stream carries the ContainsReplacedCharacter attribute. -/
def noReplacedEvents (p : ParserState) : Prop :=
  ∀ e ∈ p.core.events, eventReplaced e = false

/-- Settings with the given ReplaceInvalidEncodingSequences flag. -/
def withReplace (ls : LexSettings) (enc : JSON_Encoding) (r : Bool) : ParserSettings :=
  { lex := ls, inputEncoding := enc, replace := r }

/-! ## Latch lemmas: after an error, nothing moves -/

theorem processScalar_err {ls r s i} (h : s.error.isSome) :
    processScalar ls r s i = s := by
  simp [processScalar, h]

theorem foldl_processScalar_err {ls r s} (l : List ScalarInfo) (h : s.error.isSome) :
    l.foldl (processScalar ls r) s = s := by
  induction l with
  | nil => rfl
  | cons x xs ih => simp [List.foldl_cons, processScalar_err h, ih]

theorem feedRaw_err {ls r s b} (h : s.error.isSome) : feedRaw ls r s b = s := by
  simp [feedRaw, h]

theorem stepByte_err {ls r s b} (h : s.error.isSome) : stepByte ls r s b = s := by
  simp [stepByte, h]

theorem foldl_stepByte_err {ls r s} (l : List Nat) (h : s.error.isSome) :
    l.foldl (stepByte ls r) s = s := by
  induction l with
  | nil => rfl
  | cons x xs ih => simp [List.foldl_cons, stepByte_err h, ih]

theorem finalizeCore_err {ls r s} (h : s.error.isSome) : finalizeCore ls r s = s := by
  simp [finalizeCore, h]

/-! ## Claim C3: Unicode 5.2 maximal-subpart replacement -/

/-- The settings of claim C3: UTF-8 input and output,
ReplaceInvalidEncodingSequences enabled, everything else default. -/
def c3Settings : ParserSettings :=
  { defaultSettings with inputEncoding := .UTF8, replace := true }

/-- The string token of claim C3: a quoted string whose contents are the
bytes 61 F1 80 80 E1 80 C2 62 80 63 80 BF 64. -/
def c3Input : List Nat :=
  [0x22, 0x61, 0xF1, 0x80, 0x80, 0xE1, 0x80, 0xC2, 0x62, 0x80, 0x63, 0x80,
   0xBF, 0x64, 0x22]

/-- C3: with ReplaceInvalidEncodingSequences enabled and UTF-8 input and
output, parsing the string token `"61 F1 80 80 E1 80 C2 62 80 63 80 BF 64"`
succeeds and produces exactly one string event whose output bytes are
61, EF BF BD, EF BF BD, EF BF BD, 62, EF BF BD, 63, EF BF BD, EF BF BD, 64
(seven U+FFFD replacements, one per maximal valid initial subsequence), with
the JSON_ContainsReplacedCharacter attribute set. -/
theorem c3_unicode52_maximal_subpart_replacement :
    (runParse c3Settings c3Input).core.events =
      [.string ⟨false, false, true, false, true⟩
        [0x61, 0xEF, 0xBF, 0xBD, 0xEF, 0xBF, 0xBD, 0xEF, 0xBF, 0xBD, 0x62,
         0xEF, 0xBF, 0xBD, 0x63, 0xEF, 0xBF, 0xBD, 0xEF, 0xBF, 0xBD, 0x64]
        ⟨0, 0, 0, 0⟩] ∧
    (runParse c3Settings c3Input).core.error = none := by
  decide

/-! ## Claim C1: chunking invariance -/

/-- Two JSON_Parser_Parse calls compose: pushing `c` (not final) and then
`rest` (final) is the same call-for-call as pushing `c ++ rest` (final),
including the returned status.  This holds for every starting state: a
latched error or finished parse makes every call fail without change. -/
theorem parse_compose (p : ParserState) (c rest : List Nat) :
    (JSON_Parser_Parse (JSON_Parser_Parse p c false).2 rest true) =
      JSON_Parser_Parse p (c ++ rest) true := by
  by_cases hin : p.insideHandler || p.finished || p.core.error.isSome
  · simp [JSON_Parser_Parse, hin]
  · simp only [JSON_Parser_Parse, hin, if_false, Bool.false_eq_true]
    by_cases herr : (c.foldl (stepByte p.settings.lex p.settings.replace) p.core).error.isSome
    · simp only [herr, if_true, List.foldl_append]
      simp only [Bool.or_true, Bool.true_or, if_true]
      rw [foldl_stepByte_err rest herr, finalizeCore_err herr]
      simp [herr]
    · simp only [herr, if_false]
      simp only [Bool.or_false, hin, List.foldl_append]
      push_neg at hin
      simp [Bool.not_eq_true] at hin herr ⊢
      simp [hin, herr]

theorem feedChunks_flatten (cs : List (List Nat)) (h : cs ≠ []) :
    ∀ p : ParserState, feedChunks p cs = (JSON_Parser_Parse p cs.flatten true).2 := by
  induction cs with
  | nil => exact absurd rfl h
  | cons c cs ih =>
    intro p
    match cs, ih with
    | [], _ => simp [feedChunks]
    | c2 :: cs', ih =>
      have := ih (by simp) (JSON_Parser_Parse p c false).2
      calc feedChunks p (c :: c2 :: cs')
          = feedChunks (JSON_Parser_Parse p c false).2 (c2 :: cs') := rfl
        _ = (JSON_Parser_Parse (JSON_Parser_Parse p c false).2
              (c2 :: cs').flatten true).2 := this
        _ = (JSON_Parser_Parse p (c ++ (c2 :: cs').flatten) true).2 := by
              rw [parse_compose]
        _ = (JSON_Parser_Parse p (c :: c2 :: cs').flatten true).2 := by
              simp [List.flatten_cons]

/-- C1: chunking invariance.  For every settings value, every byte sequence
and every partition of it into consecutive chunks, feeding the chunks to
JSON_Parser_Parse in order with isFinal true only on the last call leaves
the parser in exactly the state that a single final call on the whole
sequence produces: the same event sequence with the same arguments and
token locations and, on failure, the same error code and error location. -/
theorem c1_chunking_invariance (st : ParserSettings) (chunks : List (List Nat))
    (h : chunks ≠ []) :
    feedChunks (mkParser st) chunks = runParse st chunks.flatten :=
  feedChunks_flatten chunks h (mkParser st)

/-- C1 (witness): the theorem applied to the partition of `{"x":1}` into
three chunks. -/
theorem c1_chunking_invariance_witness :
    feedChunks (mkParser defaultSettings)
        [[0x7B, 0x22], [0x78, 0x22, 0x3A], [0x31, 0x7D]] =
      runParse defaultSettings [0x7B, 0x22, 0x78, 0x22, 0x3A, 0x31, 0x7D] := by
  have := c1_chunking_invariance defaultSettings
    [[0x7B, 0x22], [0x78, 0x22, 0x3A], [0x31, 0x7D]] (by decide)
  simpa using this

/-! ## Claim C4: input-encoding auto-detection -/

/-- The detection table exactly as claim C4 (and spec section 4.1) states
it, for comparison with the modelled `detect4`: `00 00 00 xx -> UTF-32BE`,
`xx 00 00 00 -> UTF-32LE`, `00 xx -> UTF-16BE`, `xx 00 -> UTF-16LE`,
anything else UTF-8, with `00 00 00 00` and `xx 00 00 xx` failing. -/
def claimedDetect4 (b0 b1 b2 b3 : Nat) : Option JSON_Encoding :=
  if b0 = 0 && b1 = 0 && b2 = 0 && b3 = 0 then none
  else if b0 = 0 && b1 = 0 && b2 = 0 then some .UTF32BE
  else if b0 ≠ 0 && b1 = 0 && b2 = 0 && b3 = 0 then some .UTF32LE
  else if b0 ≠ 0 && b1 = 0 && b2 = 0 && b3 ≠ 0 then none
  else if b0 = 0 && b1 ≠ 0 then some .UTF16BE
  else if b0 ≠ 0 && b1 = 0 then some .UTF16LE
  else some .UTF8

/-- C4 (counterexample): the claimed table sends `FE FF 00 37` to UTF-8
("anything else"), but the parser detects the UTF-16BE byte-order mark: the
modelled detection (fixed by the test vector "UTF-16BE BOM not allowed")
classifies it as UTF-16BE, as does a parse of those four bytes. -/
theorem c4_detection_counterexample :
    claimedDetect4 0xFE 0xFF 0x00 0x37 = some .UTF8 ∧
    detect4 0xFE 0xFF 0x00 0x37 = some .UTF16BE ∧
    (runParse defaultSettings [0xFE, 0xFF, 0x00, 0x37]).core.encoding = .UTF16BE := by
  decide

/-- C4 (amended): the detection table of the claim holds as stated for all
patterns that are not byte-order marks, and the byte-order-mark patterns
`FF FE 00 00`, `00 00 FE FF`, `FF FE`, `FE FF` are classified first as
UTF-32LE, UTF-32BE, UTF-16LE and UTF-16BE respectively.  The rows below
cover every four-byte pattern: the "anything else -> UTF-8" cell is split
into its two non-BOM regions, `xx yy ...` with both bytes non-zero and not
a BOM, and `00 00 xx ...` with a non-zero third byte that does not start
the UTF-32BE BOM.  The failing
patterns `00 00 00 00` and `xx 00 00 xx` latch
JSON_Error_InvalidEncodingSequence at byte 0.  With fewer than four bytes
available when isFinal is true, the same table applies to the available
prefix, a single byte (ASCII or not) defaults to UTF-8, and empty final
input fails with JSON_Error_ExpectedMoreTokens at byte 0. -/
theorem c4_detection_table (b0 b1 b2 b3 : Nat) :
    (b0 = 0 → b1 = 0 → b2 = 0 → b3 = 0 → detect4 b0 b1 b2 b3 = none) ∧
    (b0 = 0 → b1 = 0 → b2 = 0 → b3 ≠ 0 → detect4 b0 b1 b2 b3 = some .UTF32BE) ∧
    (b0 ≠ 0 → b1 = 0 → b2 = 0 → b3 = 0 → detect4 b0 b1 b2 b3 = some .UTF32LE) ∧
    (b0 ≠ 0 → b1 = 0 → b2 = 0 → b3 ≠ 0 → detect4 b0 b1 b2 b3 = none) ∧
    (b0 = 0 → b1 ≠ 0 → detect4 b0 b1 b2 b3 = some .UTF16BE) ∧
    (b0 ≠ 0 → b1 = 0 → b2 ≠ 0 → detect4 b0 b1 b2 b3 = some .UTF16LE) ∧
    (b0 = 0xFF → b1 = 0xFE → b2 = 0 → b3 = 0 → detect4 b0 b1 b2 b3 = some .UTF32LE) ∧
    (b0 = 0 → b1 = 0 → b2 = 0xFE → b3 = 0xFF → detect4 b0 b1 b2 b3 = some .UTF32BE) ∧
    (b0 = 0xFF → b1 = 0xFE → ¬(b2 = 0 ∧ b3 = 0) → detect4 b0 b1 b2 b3 = some .UTF16LE) ∧
    (b0 = 0xFE → b1 = 0xFF → detect4 b0 b1 b2 b3 = some .UTF16BE) ∧
    (b0 ≠ 0 → b1 ≠ 0 → ¬(b0 = 0xFF ∧ b1 = 0xFE) → ¬(b0 = 0xFE ∧ b1 = 0xFF) →
      detect4 b0 b1 b2 b3 = some .UTF8) ∧
    (b0 = 0 → b1 = 0 → b2 ≠ 0 → ¬(b2 = 0xFE ∧ b3 = 0xFF) →
      detect4 b0 b1 b2 b3 = some .UTF8) ∧
    (∀ st : ParserSettings, st.inputEncoding = .Unknown → detect4 b0 b1 b2 b3 = none →
      (runParse st [b0, b1, b2, b3]).core.error =
        some (.InvalidEncodingSequence, ⟨0, 0, 0, 0⟩)) ∧
    (detectShort [b0] = .UTF8) ∧
    (b0 = 0 → b1 ≠ 0 → detectShort [b0, b1] = .UTF16BE) ∧
    (b0 ≠ 0 → b1 = 0 → detectShort [b0, b1] = .UTF16LE) ∧
    (b0 ≠ 0 → b1 = 0 → detectShort [b0, b1, b2] = .UTF16LE) ∧
    ((runParse defaultSettings []).core.error =
      some (.ExpectedMoreTokens, ⟨0, 0, 0, 0⟩)) ∧
    ((runParse defaultSettings [0xFF]).core.encoding = .UTF8 ∧
     (runParse defaultSettings [0xFF]).core.error =
       some (.InvalidEncodingSequence, ⟨0, 0, 0, 0⟩)) ∧
    ((runParse defaultSettings [0x00, 0x00, 0x00, 0x37]).core.encoding = .UTF32BE ∧
     (runParse defaultSettings [0x37, 0x00, 0x00, 0x00]).core.encoding = .UTF32LE ∧
     (runParse defaultSettings [0x00, 0x20, 0x00, 0x37]).core.encoding = .UTF16BE ∧
     (runParse defaultSettings [0x20, 0x00, 0x37, 0x00]).core.encoding = .UTF16LE ∧
     (runParse defaultSettings [0x31, 0x32, 0x33, 0x34]).core.encoding = .UTF8) := by
  refine ⟨?_, ?_, ?_, ?_, ?_, ?_, ?_, ?_, ?_, ?_, ?_, ?_, ?_, rfl, ?_, ?_, ?_,
    by decide, by decide, by decide⟩
  · intro h0 h1 h2 h3; subst h0 h1 h2 h3; decide
  · intro h0 h1 h2 h3; subst h0 h1 h2; simp [detect4, h3]
  · intro h0 h1 h2 h3; subst h1 h2 h3; simp [detect4, h0]
  · intro h0 h1 h2 h3; subst h1 h2; simp [detect4, h0, h3]
  · intro h0 h1; subst h0; simp [detect4, h1]
  · intro h0 h1 h2; subst h1; simp [detect4, h0, h2]
  · intro h0 h1 h2 h3; subst h0 h1 h2 h3; decide
  · intro h0 h1 h2 h3; subst h0 h1 h2 h3; decide
  · intro h0 h1 h2; subst h0 h1; simp only [detect4]
    split_ifs with q1 <;> simp_all
  · intro h0 h1; subst h0 h1; simp [detect4]
  · intro h0 h1 hp1 hp2; simp only [detect4]
    split_ifs with q1 q2 q3 q4 q5 q6 q7 q8 q9 q10 q11 <;> simp_all
  · intro h0 h1 h2 h3
    subst h0 h1
    by_cases hb2 : b2 = 0xFE
    · subst hb2
      have hb3 : ¬b3 = 0xFF := fun h => h3 ⟨rfl, h⟩
      simp [detect4, hb3]
    · simp [detect4, h2, hb2]
  · intro st hst h
    simp [runParse, JSON_Parser_Parse, mkParser, initCore, hst, stepByte, h,
      setError, finalizeCore_err]
  · intro h0 h1; simp [detectShort, h0, h1]
  · intro h0 h1; simp [detectShort, h0, h1]
  · intro h0 h1; simp [detectShort, h0, h1]

/-- C4 (witness): the detection rows applied at the concrete four-byte
inputs `00 00 00 37` (UTF-32BE row), `00 00 20 37` (the non-BOM
`00 00 xx ...` region of the "anything else -> UTF-8" cell) and
`20 00 00 20` (the failing pattern `xx 00 00 xx`, checked through an
actual parse). -/
theorem c4_detection_table_witness :
    detect4 0 0 0 0x37 = some .UTF32BE ∧
    detect4 0 0 0x20 0x37 = some .UTF8 ∧
    (runParse defaultSettings [0x20, 0x00, 0x00, 0x20]).core.error =
      some (.InvalidEncodingSequence, ⟨0, 0, 0, 0⟩) :=
  ⟨(c4_detection_table 0 0 0 0x37).2.1 rfl rfl rfl (by decide),
   (c4_detection_table 0 0 0x20 0x37).2.2.2.2.2.2.2.2.2.2.2.1
     rfl rfl (by decide) (by decide),
   ((c4_detection_table 0x20 0 0 0x20).2.2.2.2.2.2.2.2.2.2.2.2.1
     defaultSettings rfl (by decide))⟩

/-! ## Claim C8: reentrancy rejection without corruption -/

/-- The mutating API calls of a parser instance (spec section 5: Free,
Reset, Parse and every settings setter are forbidden inside a callback). -/
inductive MutCall where
  | reset
  | parseCall (bytes : List Nat) (isFinal : Bool)
  | setInputEncoding (e : JSON_Encoding)
  | setOutputEncoding (e : JSON_Encoding)
  | setAllowBOM (v : Bool)
  | setReplace (v : Bool)
  | setTrackObjectMembers (v : Bool)
  | setMaxOutputStringLength (v : Option Nat)

/-- Apply one mutating call to a parser instance. -/
def applyMut (p : ParserState) : MutCall → JSON_Status × ParserState
  | .reset => JSON_Parser_Reset p
  | .parseCall bytes fin => JSON_Parser_Parse p bytes fin
  | .setInputEncoding e => JSON_Parser_SetInputEncoding p e
  | .setOutputEncoding e => JSON_Parser_SetOutputEncoding p e
  | .setAllowBOM v => JSON_Parser_SetAllowBOM p v
  | .setReplace v => JSON_Parser_SetReplaceInvalidEncodingSequences p v
  | .setTrackObjectMembers v => JSON_Parser_SetTrackObjectMembers p v
  | .setMaxOutputStringLength v => JSON_Parser_SetMaxOutputStringLength p v

/-- Apply a sequence of mutating calls, threading the state. -/
def applyMutSeq (p : ParserState) : List MutCall → ParserState
  | [] => p
  | m :: ms => applyMutSeq (applyMut p m).2 ms

/-- The parser state as the in-progress parse sees it once the callback
returns and the reentrancy flag is cleared. -/
def handlerReturn (p : ParserState) : ParserState :=
  { p with insideHandler := false }

/-- C8: while one of a parser instance's callbacks is executing
(`insideHandler` set), every mutating call on that instance — Free, Reset,
Parse and every settings setter — returns JSON_Failure and leaves the
instance unchanged; getters still succeed; and after the callback returns,
the in-progress parse continues from exactly the state it would have had if
no reentrant calls had been attempted, so it completes with the same
events, status and final state. -/
theorem c8_reentrancy_rejected (p : ParserState) (h : p.insideHandler = true) :
    (∀ m : MutCall, (applyMut p m).1 = .Failure ∧ (applyMut p m).2 = p) ∧
    JSON_Parser_Free p = .Failure ∧
    (JSON_Parser_GetError p).1 = .Success ∧
    (JSON_Parser_GetInputEncoding p).1 = .Success ∧
    (∀ ms : List MutCall, applyMutSeq p ms = p) ∧
    (∀ ms : List MutCall, ∀ bytes fin,
      JSON_Parser_Parse (handlerReturn (applyMutSeq p ms)) bytes fin =
        JSON_Parser_Parse (handlerReturn p) bytes fin) := by
  have hmut : ∀ m : MutCall, (applyMut p m).1 = .Failure ∧ (applyMut p m).2 = p := by
    intro m
    cases m <;>
      simp [applyMut, JSON_Parser_Reset, JSON_Parser_Parse,
        JSON_Parser_SetInputEncoding, JSON_Parser_SetOutputEncoding,
        JSON_Parser_SetAllowBOM, JSON_Parser_SetReplaceInvalidEncodingSequences,
        JSON_Parser_SetTrackObjectMembers, JSON_Parser_SetMaxOutputStringLength,
        trySetter, h, ite_self]
  have hseq : ∀ ms : List MutCall, applyMutSeq p ms = p := by
    intro ms
    induction ms with
    | nil => rfl
    | cons m ms ih => simp [applyMutSeq, (hmut m).2, ih]
  exact ⟨hmut, by simp [JSON_Parser_Free, h], rfl, rfl, hseq,
    fun ms bytes fin => by rw [hseq ms]⟩

/-- C8 (witness): the theorem applied to a parser stuck inside a handler,
attempting a Reset, a Parse and a setter. -/
theorem c8_reentrancy_rejected_witness :
    (applyMut { JSON_Parser_Create with insideHandler := true } .reset).1 = .Failure ∧
    (applyMut { JSON_Parser_Create with insideHandler := true }
      (.parseCall [0x37] true)).2 = { JSON_Parser_Create with insideHandler := true } ∧
    applyMutSeq { JSON_Parser_Create with insideHandler := true }
      [.setAllowBOM true, .reset] = { JSON_Parser_Create with insideHandler := true } := by
  have h := c8_reentrancy_rejected { JSON_Parser_Create with insideHandler := true } rfl
  exact ⟨(h.1 .reset).1, (h.1 (.parseCall [0x37] true)).2,
    h.2.2.2.2.1 [.setAllowBOM true, .reset]⟩

/-! ## Claim C6: the object-member callback shape in jsonsax.h -/

/-- C6 (counterexample): the claim asserts that the public object-member
handler is called only with the member name bytes, their length and the
string attributes, with no is-first-member boolean; but the parameter list
declared at jsonsax.h line 698 contains a JSON_Boolean `isFirstMember`
parameter, so the claimed parameter list is not the declared one. -/
theorem c6_member_handler_shape_counterexample :
    objectMemberHandlerParams ≠
      ([.parserT, .bytesT, .sizeT, .attributesT] : List CParamType) ∧
    CParamType.booleanT ∈ objectMemberHandlerParams := by
  decide

/-- C6 (amended): in jsonsax.h, the array-item handler receives an
is-first-item boolean (line 719), and the object-member handler likewise
receives an is-first-member boolean in addition to the member name bytes,
their length and the string attributes (line 698); the string handler is the
one without a boolean. -/
theorem c6_member_handler_shape :
    objectMemberHandlerParams =
      ([.parserT, .booleanT, .bytesT, .sizeT, .attributesT] : List CParamType) ∧
    arrayItemHandlerParams = ([.parserT, .booleanT] : List CParamType) ∧
    stringHandlerParams = ([.parserT, .bytesT, .sizeT, .attributesT] : List CParamType) := by
  decide

/-! ## Claim C9: writer structural sequence -/

/-- The writer call sequence of claim C9, on a fresh writer with UTF-8
output: StartArray, StartArray, EndArray, Comma, Number "0", Comma,
String "a" (UTF-8 input), EndArray. -/
def c9Run : List JSON_Status × WriterState :=
  let ws : WriterSettings := ⟨.UTF8, false, false⟩
  let r1 := JSON_Writer_WriteStartArray ws JSON_Writer_Create
  let r2 := JSON_Writer_WriteStartArray ws r1.2
  let r3 := JSON_Writer_WriteEndArray ws r2.2
  let r4 := JSON_Writer_WriteComma ws r3.2
  let r5 := JSON_Writer_WriteNumber ws r4.2 [0x30]
  let r6 := JSON_Writer_WriteComma ws r5.2
  let r7 := JSON_Writer_WriteString ws r6.2 [0x61] .UTF8
  let r8 := JSON_Writer_WriteEndArray ws r7.2
  ([r1.1, r2.1, r3.1, r4.1, r5.1, r6.1, r7.1, r8.1], r8.2)

/-- C9: on a freshly created writer with UTF-8 output encoding, the call
sequence StartArray, StartArray, EndArray, Comma, Number("0"), Comma,
String("a", UTF-8), EndArray returns JSON_Success from every call and
delivers exactly the bytes 5B 5B 5D 2C 30 2C 22 61 22 5D, with no writer
error latched. -/
theorem c9_writer_structural_sequence :
    c9Run.1 = List.replicate 8 .Success ∧
    c9Run.2.output = [0x5B, 0x5B, 0x5D, 0x2C, 0x30, 0x2C, 0x22, 0x61, 0x22, 0x5D] ∧
    c9Run.2.error = none := by
  decide

/-! ## Claim C10: totality of JSON_ErrorString -/

/-- C10: JSON_ErrorString is total over the integers: every defined error
code (0 through 15) maps to its canonical non-empty description (the exact
strings demanded by TestErrorStrings in the test suite), and every integer
outside that range maps to the empty string. -/
theorem c10_error_string_total :
    (∀ er : JSON_Error, JSON_ErrorString (errorCode er) = testHarnessString er) ∧
    (∀ er : JSON_Error, testHarnessString er ≠ "") ∧
    (∀ e : Int, e < 0 ∨ 15 < e → JSON_ErrorString e = "") := by
  refine ⟨by decide, by decide, ?_⟩
  intro e h
  have h0 : ¬e = 0 := by omega
  have h1 : ¬e = 1 := by omega
  have h2 : ¬e = 2 := by omega
  have h3 : ¬e = 3 := by omega
  have h4 : ¬e = 4 := by omega
  have h5 : ¬e = 5 := by omega
  have h6 : ¬e = 6 := by omega
  have h7 : ¬e = 7 := by omega
  have h8 : ¬e = 8 := by omega
  have h9 : ¬e = 9 := by omega
  have h10 : ¬e = 10 := by omega
  have h11 : ¬e = 11 := by omega
  have h12 : ¬e = 12 := by omega
  have h13 : ¬e = 13 := by omega
  have h14 : ¬e = 14 := by omega
  have h15 : ¬e = 15 := by omega
  simp only [JSON_ErrorString, if_neg h0, if_neg h1, if_neg h2, if_neg h3,
    if_neg h4, if_neg h5, if_neg h6, if_neg h7, if_neg h8, if_neg h9,
    if_neg h10, if_neg h11, if_neg h12, if_neg h13, if_neg h14, if_neg h15]

/-- C10 (witness): the theorem applied at the out-of-range code 1000 and at
the defined code JSON_Error_DuplicateObjectMember. -/
theorem c10_error_string_total_witness :
    JSON_ErrorString 1000 = "" ∧
    JSON_ErrorString (errorCode .DuplicateObjectMember) =
      testHarnessString .DuplicateObjectMember :=
  ⟨c10_error_string_total.2.2 1000 (by omega),
   c10_error_string_total.1 .DuplicateObjectMember⟩

/-! ## Claim C5: escape-error locations -/

/-- Parser settings with the input encoding pinned to UTF-8 (no detection
phase) and everything else at the create-time defaults. -/
def utf8Settings : ParserSettings := { defaultSettings with inputEncoding := .UTF8 }

/-- A member-handler verdict that never reports a duplicate (the default). -/
def noVerdict : List Nat → Bool := fun _ => false

/-- Lexer settings with UTF-8 output and no string-length cap; the remaining
toggles stay abstract so the step lemmas below serve several claims. -/
def mkLex (ab tom : Bool) (mnl : Option Nat) (mv : List Nat → Bool) : LexSettings :=
  ⟨.UTF8, ab, tom, none, mnl, mv⟩

/-- Template state: decoding UTF-8 between tokens at byte/column `n` of line
0, with the given events, stack, grammar state and token start behind it. -/
def midBetween (ev : List JSON_ParseEvent) (stk : List Frame) (g : GramState)
    (tok : Nat × Nat × Nat) (n : Nat) : CoreState :=
  { error := none, phase := .decoding, encoding := .UTF8, pending := [],
    pendingStart := 0, byteIndex := n, line := 0, column := n, prevCR := false,
    atStart := false, lexer := .between, tokStart := tok, stack := stk,
    gram := g, replaced := false, events := ev }

/-- Template state: inside a string token, with accumulated output bytes `B`,
attributes `a` and escape sub-state `es`, at byte/column `n` of line 0. -/
def midStr (ev : List JSON_ParseEvent) (stk : List Frame) (g : GramState)
    (tok : Nat × Nat × Nat) (B : List Nat) (a : JSON_StringAttributes)
    (es : EscState) (n : Nat) : CoreState :=
  { error := none, phase := .decoding, encoding := .UTF8, pending := [],
    pendingStart := 0, byteIndex := n, line := 0, column := n, prevCR := false,
    atStart := false, lexer := .inString B a es, tokStart := tok, stack := stk,
    gram := g, replaced := false, events := ev }

theorem st_space (ab tom : Bool) (mnl : Option Nat) (mv : List Nat → Bool) (r : Bool)
    (ev : List JSON_ParseEvent) (stk : List Frame) (g : GramState)
    (tok : Nat × Nat × Nat) (n : Nat) :
    stepByte (mkLex ab tom mnl mv) r (midBetween ev stk g tok n) 0x20 =
      midBetween ev stk g tok (n + 1) := rfl

theorem st_quote (ab tom : Bool) (mnl : Option Nat) (mv : List Nat → Bool) (r : Bool)
    (ev : List JSON_ParseEvent) (stk : List Frame) (g : GramState)
    (tok : Nat × Nat × Nat) (n : Nat) :
    stepByte (mkLex ab tom mnl mv) r (midBetween ev stk g tok n) 0x22 =
      midStr ev stk g (n, 0, n) [] noAttrs .escNone (n + 1) := rfl

theorem st0_space (ab tom : Bool) (mnl : Option Nat) (mv : List Nat → Bool) (r : Bool) :
    stepByte (mkLex ab tom mnl mv) r (initCore .UTF8) 0x20 =
      midBetween [] [] .startTop (0, 0, 0) 1 := rfl

theorem st0_quote (ab tom : Bool) (mnl : Option Nat) (mv : List Nat → Bool) (r : Bool) :
    stepByte (mkLex ab tom mnl mv) r (initCore .UTF8) 0x22 =
      midStr [] [] .startTop (0, 0, 0) [] noAttrs .escNone 1 := rfl

theorem st_letter (ab tom : Bool) (mnl : Option Nat) (mv : List Nat → Bool) (r : Bool)
    (ev : List JSON_ParseEvent) (stk : List Frame) (g : GramState)
    (tok : Nat × Nat × Nat) (B : List Nat) (n : Nat) :
    stepByte (mkLex ab tom mnl mv) r (midStr ev stk g tok B noAttrs .escNone n) 0x61 =
      midStr ev stk g tok (B ++ [0x61]) noAttrs .escNone (n + 1) := rfl

theorem st_bslash (ab tom : Bool) (mnl : Option Nat) (mv : List Nat → Bool) (r : Bool)
    (ev : List JSON_ParseEvent) (stk : List Frame) (g : GramState)
    (tok : Nat × Nat × Nat) (B : List Nat) (a : JSON_StringAttributes) (n : Nat) :
    stepByte (mkLex ab tom mnl mv) r (midStr ev stk g tok B a .escNone n) 0x5C =
      midStr ev stk g tok B a (.escB (n, 0, n)) (n + 1) := rfl

theorem st_escu (ab tom : Bool) (mnl : Option Nat) (mv : List Nat → Bool) (r : Bool)
    (ev : List JSON_ParseEvent) (stk : List Frame) (g : GramState)
    (tok : Nat × Nat × Nat) (B : List Nat) (a : JSON_StringAttributes)
    (el : Nat × Nat × Nat) (n : Nat) :
    stepByte (mkLex ab tom mnl mv) r (midStr ev stk g tok B a (.escB el) n) 0x75 =
      midStr ev stk g tok B a (.escU el []) (n + 1) := rfl

theorem st_hexD (ab tom : Bool) (mnl : Option Nat) (mv : List Nat → Bool) (r : Bool)
    (ev : List JSON_ParseEvent) (stk : List Frame) (g : GramState)
    (tok : Nat × Nat × Nat) (B : List Nat) (a : JSON_StringAttributes)
    (el : Nat × Nat × Nat) (n : Nat) :
    stepByte (mkLex ab tom mnl mv) r (midStr ev stk g tok B a (.escU el []) n) 0x44 =
      midStr ev stk g tok B a (.escU el [13]) (n + 1) := rfl

theorem st_hex8 (ab tom : Bool) (mnl : Option Nat) (mv : List Nat → Bool) (r : Bool)
    (ev : List JSON_ParseEvent) (stk : List Frame) (g : GramState)
    (tok : Nat × Nat × Nat) (B : List Nat) (a : JSON_StringAttributes)
    (el : Nat × Nat × Nat) (n : Nat) :
    stepByte (mkLex ab tom mnl mv) r (midStr ev stk g tok B a (.escU el [13]) n) 0x38 =
      midStr ev stk g tok B a (.escU el [13, 8]) (n + 1) := rfl

theorem st_hexT (ab tom : Bool) (mnl : Option Nat) (mv : List Nat → Bool) (r : Bool)
    (ev : List JSON_ParseEvent) (stk : List Frame) (g : GramState)
    (tok : Nat × Nat × Nat) (B : List Nat) (a : JSON_StringAttributes)
    (el : Nat × Nat × Nat) (n : Nat) :
    stepByte (mkLex ab tom mnl mv) r (midStr ev stk g tok B a (.escU el [13, 8]) n) 0x33 =
      midStr ev stk g tok B a (.escU el [13, 8, 3]) (n + 1) := rfl

theorem st_hexF (ab tom : Bool) (mnl : Option Nat) (mv : List Nat → Bool) (r : Bool)
    (ev : List JSON_ParseEvent) (stk : List Frame) (g : GramState)
    (tok : Nat × Nat × Nat) (B : List Nat) (a : JSON_StringAttributes)
    (el : Nat × Nat × Nat) (n : Nat) :
    stepByte (mkLex ab tom mnl mv) r (midStr ev stk g tok B a (.escU el [13, 8, 3]) n) 0x34 =
      midStr ev stk g tok B a (.escSur 0xD834 el) (n + 1) := rfl

theorem st_hexC (ab tom : Bool) (mnl : Option Nat) (mv : List Nat → Bool) (r : Bool)
    (ev : List JSON_ParseEvent) (stk : List Frame) (g : GramState)
    (tok : Nat × Nat × Nat) (B : List Nat) (a : JSON_StringAttributes)
    (el : Nat × Nat × Nat) (n : Nat) :
    stepByte (mkLex ab tom mnl mv) r (midStr ev stk g tok B a (.escU el [13]) n) 0x43 =
      midStr ev stk g tok B a (.escU el [13, 12]) (n + 1) := rfl

theorem st_hexZeroA (ab tom : Bool) (mnl : Option Nat) (mv : List Nat → Bool) (r : Bool)
    (ev : List JSON_ParseEvent) (stk : List Frame) (g : GramState)
    (tok : Nat × Nat × Nat) (B : List Nat) (a : JSON_StringAttributes)
    (el : Nat × Nat × Nat) (n : Nat) :
    stepByte (mkLex ab tom mnl mv) r (midStr ev stk g tok B a (.escU el [13, 12]) n) 0x30 =
      midStr ev stk g tok B a (.escU el [13, 12, 0]) (n + 1) := rfl

theorem st_vbad (ab tom : Bool) (mnl : Option Nat) (mv : List Nat → Bool) (r : Bool)
    (ev : List JSON_ParseEvent) (stk : List Frame) (g : GramState)
    (tok : Nat × Nat × Nat) (B : List Nat) (a : JSON_StringAttributes)
    (el : Nat × Nat × Nat) (n : Nat) :
    (stepByte (mkLex ab tom mnl mv) r (midStr ev stk g tok B a (.escB el) n) 0x76).error =
      some (.InvalidEscapeSequence, ⟨el.1, el.2.1, el.2.2, stk.length⟩) := rfl

theorem st_hexZbad (ab tom : Bool) (mnl : Option Nat) (mv : List Nat → Bool) (r : Bool)
    (ev : List JSON_ParseEvent) (stk : List Frame) (g : GramState)
    (tok : Nat × Nat × Nat) (B : List Nat) (a : JSON_StringAttributes)
    (el : Nat × Nat × Nat) (n : Nat) :
    (stepByte (mkLex ab tom mnl mv) r (midStr ev stk g tok B a (.escU el []) n) 0x5A).error =
      some (.InvalidEscapeSequence, ⟨el.1, el.2.1, el.2.2, stk.length⟩) := rfl

theorem st_surbad (ab tom : Bool) (mnl : Option Nat) (mv : List Nat → Bool) (r : Bool)
    (ev : List JSON_ParseEvent) (stk : List Frame) (g : GramState)
    (tok : Nat × Nat × Nat) (B : List Nat) (a : JSON_StringAttributes)
    (el : Nat × Nat × Nat) (n : Nat) :
    (stepByte (mkLex ab tom mnl mv) r (midStr ev stk g tok B a (.escSur 0xD834 el) n) 0x78).error =
      some (.UnpairedSurrogateEscapeSequence, ⟨el.1, el.2.1, el.2.2, stk.length⟩) := rfl

theorem st_hexZeroBad (ab tom : Bool) (mnl : Option Nat) (mv : List Nat → Bool) (r : Bool)
    (ev : List JSON_ParseEvent) (stk : List Frame) (g : GramState)
    (tok : Nat × Nat × Nat) (B : List Nat) (a : JSON_StringAttributes)
    (el : Nat × Nat × Nat) (n : Nat) :
    (stepByte (mkLex ab tom mnl mv) r (midStr ev stk g tok B a (.escU el [13, 12, 0]) n) 0x30).error =
      some (.UnpairedSurrogateEscapeSequence, ⟨el.1, el.2.1, el.2.2, stk.length⟩) := rfl

theorem fold_spaces (ab tom : Bool) (mnl : Option Nat) (mv : List Nat → Bool) (r : Bool)
    (ev : List JSON_ParseEvent) (stk : List Frame) (g : GramState)
    (tok : Nat × Nat × Nat) (j : Nat) (n : Nat) :
    List.foldl (stepByte (mkLex ab tom mnl mv) r) (midBetween ev stk g tok n)
        (List.replicate j 0x20) =
      midBetween ev stk g tok (n + j) := by
  induction j generalizing n with
  | zero => simp [List.replicate]
  | succ j ih =>
    rw [List.replicate_succ, List.foldl_cons, st_space, ih]
    rw [show n + 1 + j = n + (j + 1) from by omega]

theorem fold_letters (ab tom : Bool) (mnl : Option Nat) (mv : List Nat → Bool) (r : Bool)
    (ev : List JSON_ParseEvent) (stk : List Frame) (g : GramState)
    (tok : Nat × Nat × Nat) (k : Nat) (B : List Nat) (n : Nat) :
    List.foldl (stepByte (mkLex ab tom mnl mv) r) (midStr ev stk g tok B noAttrs .escNone n)
        (List.replicate k 0x61) =
      midStr ev stk g tok (B ++ List.replicate k 0x61) noAttrs .escNone (n + k) := by
  induction k generalizing B n with
  | zero => simp [List.replicate]
  | succ k ih =>
    rw [List.replicate_succ, List.foldl_cons, st_letter, ih]
    rw [show (B ++ [0x61]) ++ List.replicate k 0x61 = B ++ (0x61 :: List.replicate k 0x61)
          from by simp]
    rw [show n + 1 + k = n + (k + 1) from by omega]

theorem reach_string (ab tom : Bool) (mnl : Option Nat) (mv : List Nat → Bool) (r : Bool)
    (j : Nat) :
    List.foldl (stepByte (mkLex ab tom mnl mv) r) (initCore .UTF8)
        (List.replicate j 0x20 ++ [0x22]) =
      midStr [] [] .startTop (j, 0, j) [] noAttrs .escNone (j + 1) := by
  cases j with
  | zero =>
    rw [List.replicate, List.nil_append, List.foldl_cons, st0_quote, List.foldl_nil]
  | succ j =>
    rw [List.replicate_succ, List.cons_append, List.foldl_cons, st0_space,
      List.foldl_append, fold_spaces, List.foldl_cons, st_quote, List.foldl_nil,
      show 1 + j = j + 1 from by omega]

theorem err_of_run (bytes : List Nat) (e : JSON_Error) (loc : JSON_Location)
    (h : (List.foldl (stepByte (mkLex false false none noVerdict) false)
            (initCore .UTF8) bytes).error = some (e, loc)) :
    errKind (runParse utf8Settings bytes) = e ∧ errLoc (runParse utf8Settings bytes) = loc := by
  have hc : (runParse utf8Settings bytes).core
      = finalizeCore (mkLex false false none noVerdict) false
          (List.foldl (stepByte (mkLex false false none noVerdict) false)
            (initCore .UTF8) bytes) := rfl
  have hfin : finalizeCore (mkLex false false none noVerdict) false
      (List.foldl (stepByte (mkLex false false none noVerdict) false)
        (initCore .UTF8) bytes)
      = List.foldl (stepByte (mkLex false false none noVerdict) false)
          (initCore .UTF8) bytes :=
    finalizeCore_err (by rw [h]; rfl)
  constructor
  · unfold errKind
    rw [hc, hfin, h]
  · unfold errLoc
    rw [hc, hfin, h]

/-- C5: corrected escape-error locations.  For a string token beginning at
byte j (after j spaces) with k plain characters before the escape, an invalid
escape introducer (v), an invalid hexadecimal digit in a Unicode escape, an
escaped high surrogate not followed by an escaped low surrogate, and a lone
escaped low surrogate each fail with the claimed error kind, but the error
location is the backslash that opened the offending escape sequence -- byte
j + 1 + k -- not the string's start byte j. -/
theorem c5_escape_error_location (j k : Nat) :
    (errKind (runParse utf8Settings (List.replicate j 0x20 ++ [0x22] ++
        List.replicate k 0x61 ++ [0x5C, 0x76])) = .InvalidEscapeSequence
      ∧ errLoc (runParse utf8Settings (List.replicate j 0x20 ++ [0x22] ++
          List.replicate k 0x61 ++ [0x5C, 0x76])) = ⟨j + 1 + k, 0, j + 1 + k, 0⟩)
  ∧ (errKind (runParse utf8Settings (List.replicate j 0x20 ++ [0x22] ++
        List.replicate k 0x61 ++ [0x5C, 0x75, 0x5A])) = .InvalidEscapeSequence
      ∧ errLoc (runParse utf8Settings (List.replicate j 0x20 ++ [0x22] ++
          List.replicate k 0x61 ++ [0x5C, 0x75, 0x5A])) = ⟨j + 1 + k, 0, j + 1 + k, 0⟩)
  ∧ (errKind (runParse utf8Settings (List.replicate j 0x20 ++ [0x22] ++
        List.replicate k 0x61 ++ [0x5C, 0x75, 0x44, 0x38, 0x33, 0x34, 0x78])) =
          .UnpairedSurrogateEscapeSequence
      ∧ errLoc (runParse utf8Settings (List.replicate j 0x20 ++ [0x22] ++
          List.replicate k 0x61 ++ [0x5C, 0x75, 0x44, 0x38, 0x33, 0x34, 0x78])) =
            ⟨j + 1 + k, 0, j + 1 + k, 0⟩)
  ∧ (errKind (runParse utf8Settings (List.replicate j 0x20 ++ [0x22] ++
        List.replicate k 0x61 ++ [0x5C, 0x75, 0x44, 0x43, 0x30, 0x30])) =
          .UnpairedSurrogateEscapeSequence
      ∧ errLoc (runParse utf8Settings (List.replicate j 0x20 ++ [0x22] ++
          List.replicate k 0x61 ++ [0x5C, 0x75, 0x44, 0x43, 0x30, 0x30])) =
            ⟨j + 1 + k, 0, j + 1 + k, 0⟩) := by
  refine ⟨?_, ?_, ?_, ?_⟩
  · have hfold : List.foldl (stepByte (mkLex false false none noVerdict) false)
        (initCore .UTF8) (List.replicate j 0x20 ++ [0x22] ++
          List.replicate k 0x61 ++ [0x5C, 0x76])
        = stepByte (mkLex false false none noVerdict) false
            (midStr [] [] .startTop (j, 0, j) ([] ++ List.replicate k 0x61) noAttrs
              (.escB (j + 1 + k, 0, j + 1 + k)) (j + 1 + k + 1)) 0x76 := by
      rw [List.foldl_append, List.foldl_append, reach_string, fold_letters, List.foldl_cons, st_bslash,
        List.foldl_cons, List.foldl_nil]
    exact err_of_run _ _ _ (by rw [hfold]; exact st_vbad ..)
  · have hfold : List.foldl (stepByte (mkLex false false none noVerdict) false)
        (initCore .UTF8) (List.replicate j 0x20 ++ [0x22] ++
          List.replicate k 0x61 ++ [0x5C, 0x75, 0x5A])
        = stepByte (mkLex false false none noVerdict) false
            (midStr [] [] .startTop (j, 0, j) ([] ++ List.replicate k 0x61) noAttrs
              (.escU (j + 1 + k, 0, j + 1 + k) []) (j + 1 + k + 1 + 1)) 0x5A := by
      rw [List.foldl_append, List.foldl_append, reach_string, fold_letters, List.foldl_cons, st_bslash,
        List.foldl_cons, st_escu, List.foldl_cons, List.foldl_nil]
    exact err_of_run _ _ _ (by rw [hfold]; exact st_hexZbad ..)
  · have hfold : List.foldl (stepByte (mkLex false false none noVerdict) false)
        (initCore .UTF8) (List.replicate j 0x20 ++ [0x22] ++
          List.replicate k 0x61 ++ [0x5C, 0x75, 0x44, 0x38, 0x33, 0x34, 0x78])
        = stepByte (mkLex false false none noVerdict) false
            (midStr [] [] .startTop (j, 0, j) ([] ++ List.replicate k 0x61) noAttrs
              (.escSur 0xD834 (j + 1 + k, 0, j + 1 + k))
              (j + 1 + k + 1 + 1 + 1 + 1 + 1 + 1)) 0x78 := by
      rw [List.foldl_append, List.foldl_append, reach_string, fold_letters, List.foldl_cons, st_bslash,
        List.foldl_cons, st_escu, List.foldl_cons, st_hexD, List.foldl_cons, st_hex8,
        List.foldl_cons, st_hexT, List.foldl_cons, st_hexF, List.foldl_cons,
        List.foldl_nil]
    exact err_of_run _ _ _ (by rw [hfold]; exact st_surbad ..)
  · have hfold : List.foldl (stepByte (mkLex false false none noVerdict) false)
        (initCore .UTF8) (List.replicate j 0x20 ++ [0x22] ++
          List.replicate k 0x61 ++ [0x5C, 0x75, 0x44, 0x43, 0x30, 0x30])
        = stepByte (mkLex false false none noVerdict) false
            (midStr [] [] .startTop (j, 0, j) ([] ++ List.replicate k 0x61) noAttrs
              (.escU (j + 1 + k, 0, j + 1 + k) [13, 12, 0])
              (j + 1 + k + 1 + 1 + 1 + 1 + 1)) 0x30 := by
      rw [List.foldl_append, List.foldl_append, reach_string, fold_letters, List.foldl_cons, st_bslash,
        List.foldl_cons, st_escu, List.foldl_cons, st_hexD, List.foldl_cons, st_hexC,
        List.foldl_cons, st_hexZeroA, List.foldl_cons, List.foldl_nil]
    exact err_of_run _ _ _ (by rw [hfold]; exact st_hexZeroBad ..)

/-- C5 counterexample: in the four-byte input 22 5C 76 22 the string token
begins at byte 0, yet the invalid escape fails at byte 1 (the backslash), not
at the string's start byte 0 as claimed. -/
theorem c5_escape_error_location_counterexample :
    errKind (runParse utf8Settings [0x22, 0x5C, 0x76, 0x22]) = .InvalidEscapeSequence
    ∧ errLoc (runParse utf8Settings [0x22, 0x5C, 0x76, 0x22]) = ⟨1, 0, 1, 0⟩
    ∧ (errLoc (runParse utf8Settings [0x22, 0x5C, 0x76, 0x22])).byte ≠ 0 := by
  decide

end Jsonsax
